/-
  Verification of the temperature-grid rendering pipeline.

  Shallow embedding of two source files:
  - `src/unnamed/part_000`   (module `Render` below): the pure rendering
    library — grid constants, color ramps, `tempToRGB`, Catmull-Rom bicubic
    resampling, nearest-neighbor ocean mask, 3-pass box blur,
    `renderPixelData`.
  - `src/thermal-worker.js`  (module `Worker` below): a self-contained
    duplicate of the same math pipeline, plus the atlas job (geometry,
    per-day loop, progress messages, cooperative cancellation).

  Modelling conventions:
  - A JavaScript number is modelled as `JSNum := Option ℚ`, with `none`
    playing NaN (the missing-data sentinel); arithmetic propagates `none`
    the way IEEE arithmetic propagates NaN.  Exact rational arithmetic
    stands in for double precision: every claim here is stated at the
    mathematical level of the spec.
  - Reading a typed array out of bounds yields JavaScript `undefined`,
    which is distinct from NaN (`undefined === undefined` is true while
    `NaN === NaN` is false).  A grid read therefore returns
    `Option JSNum`: `none` for an out-of-bounds (`undefined`) read,
    `some v` for a stored cell `v`.
  - Byte buffers (`Uint8ClampedArray`) are total functions `ℕ → ℕ`;
    a store clamps to [0, 255] (`u8clampZ`).
  - `Math.floor`, `Math.round`, `x | 0` are `ratFloor`, `jsRound`,
    `jsTrunc` (the operands relevant here stay far below 2^31, so 32-bit
    wrap-around of `| 0` does not matter and is not modelled).
  - The worker's OffscreenCanvas compositing and JPEG encoding are outside
    the embedding; the atlas job is modelled by its geometry and its
    message trace (`Worker.renderAtlasMsgs`).
-/
import Mathlib

set_option maxHeartbeats 1000000
set_option maxRecDepth 4000

/-- A JavaScript number: `none` models NaN (the missing-data sentinel). -/
abbrev JSNum := Option ℚ

/-- JavaScript `+` on numbers: NaN propagates. -/
def jsAdd : JSNum → JSNum → JSNum
  | some a, some b => some (a + b)
  | _, _ => none

/-- JavaScript `*` on numbers: NaN propagates. -/
def jsMul : JSNum → JSNum → JSNum
  | some a, some b => some (a * b)
  | _, _ => none

/-- JavaScript `-` on numbers: NaN propagates. -/
def jsSub : JSNum → JSNum → JSNum
  | some a, some b => some (a - b)
  | _, _ => none

/-- JavaScript `/` on numbers.  NaN propagates and `0/0` is NaN.  (A nonzero
numerator over zero is Infinity in JavaScript; no code path settled here
divides a nonzero number by zero, and the model folds that case into `none`.) -/
def jsDiv : JSNum → JSNum → JSNum
  | some a, some b => if b = 0 then none else some (a / b)
  | _, _ => none

@[simp] theorem jsAdd_some_some (a b : ℚ) : jsAdd (some a) (some b) = some (a + b) := rfl

@[simp] theorem jsAdd_none_right (a : JSNum) : jsAdd a none = none := by cases a <;> rfl

@[simp] theorem jsAdd_none_left (a : JSNum) : jsAdd none a = none := rfl

@[simp] theorem jsMul_some_some (a b : ℚ) : jsMul (some a) (some b) = some (a * b) := rfl

@[simp] theorem jsMul_none_right (a : JSNum) : jsMul a none = none := by cases a <;> rfl

@[simp] theorem jsMul_none_left (a : JSNum) : jsMul none a = none := rfl

/-- `Math.floor` on an exact rational (`q.num / q.den` is the floor since
`q.den > 0`; see `ratFloor_eq`). -/
def ratFloor (q : ℚ) : ℤ := q.num / q.den

@[simp] theorem ratFloor_eq (q : ℚ) : ratFloor q = ⌊q⌋ := Rat.floor_def.symm

/-- `Math.round`: floor of `q + 1/2` (JavaScript rounds half toward +∞). -/
def jsRound (q : ℚ) : ℤ := ratFloor (q + 1/2)

theorem jsRound_eq (q : ℚ) : jsRound q = ⌊q + 1/2⌋ := by
  simp [jsRound]

/-- Truncation toward zero, the effect of `| 0` on a number in int32 range. -/
def jsTrunc (q : ℚ) : ℤ := if q < 0 then -(ratFloor (-q)) else ratFloor q

/-- Storing an integer into a `Uint8ClampedArray` slot clamps it to [0, 255]. -/
def u8clampZ (z : ℤ) : ℕ := if z ≤ 0 then 0 else if 255 ≤ z then 255 else z.toNat

@[simp] theorem u8clampZ_255 : u8clampZ 255 = 255 := rfl

/-- A temperature grid: the day's `NUM_POINTS` cells, each a JS number
(`some none` in a read result is a stored NaN = ocean / missing data). -/
abbrev Grid := List JSNum

/-- `temps[i]` on a typed array: `none` models the `undefined` produced by an
out-of-bounds read. -/
def jsRead (temps : Grid) (i : ℤ) : Option JSNum :=
  if 0 ≤ i then temps[i.toNat]? else none

/-- `v === v` for a grid read `v`: false exactly for a stored NaN
(`undefined === undefined` is true in JavaScript). -/
def isJsValid (v : Option JSNum) : Bool := v.elim true (fun jn => jn.isSome)

/-- Coercion of a grid read to a number, as a `Float64Array` store or
arithmetic performs it: `undefined` becomes NaN. -/
def readToNum (v : Option JSNum) : JSNum := v.getD none

/-- An RGBA byte buffer (`Uint8ClampedArray`), as a total function from
byte index to byte value; indices ≥ the buffer length are never read. -/
abbrev Buf := ℕ → ℕ

/-- Single byte store. -/
def upd (b : Buf) (i : ℕ) (v : ℕ) : Buf := fun j => if j = i then v else b j

@[simp] theorem upd_same (b : Buf) (i v : ℕ) : upd b i v i = v := by simp [upd]

theorem upd_other (b : Buf) (i v j : ℕ) (h : j ≠ i) : upd b i v j = b j := by
  simp [upd, h]

/-- The four RGBA stores of one pixel (`data[idx..idx+3] = r,g,b,a`). -/
def write4 (b : Buf) (idx r g bl a : ℕ) : Buf :=
  upd (upd (upd (upd b idx r) (idx + 1) g) (idx + 2) bl) (idx + 3) a

/-- One color stop `{ t, c }`: threshold and RGB color.  The data model's
colors are RGB triples of integers. -/
structure Stop where
  t : ℚ
  c : ℤ × ℤ × ℤ
deriving DecidableEq

/-- The four recognized colorway names. -/
inductive Colorway
  | thermal
  | classic
  | earth
  | vivid
deriving DecidableEq

/-- Render options: a colorway name, optional custom stop table
(`opts.customStops || COLORWAY_MAP[opts.colorway]`), and blur radius. -/
structure RenderOptions where
  colorway : Colorway
  customStops : Option (List Stop) := none
  blurRadius : ℚ := 0

namespace Render

/- ── Grid Config (src/unnamed/part_000) ── -/

def GRID_STEP : ℚ := 2

def LAT_MIN : ℚ := -90

def LAT_MAX : ℚ := 90

def LNG_MIN : ℚ := -180

def LNG_MAX : ℚ := 180

/-- `Math.floor((LAT_MAX - LAT_MIN) / GRID_STEP) + 1` = 91. -/
def NUM_LAT : ℕ := (ratFloor ((LAT_MAX - LAT_MIN) / GRID_STEP)).toNat + 1

/-- `Math.floor((LNG_MAX - LNG_MIN) / GRID_STEP) + 1` = 181. -/
def NUM_LNG : ℕ := (ratFloor ((LNG_MAX - LNG_MIN) / GRID_STEP)).toNat + 1

def NUM_POINTS : ℕ := NUM_LAT * NUM_LNG

def RENDER_WIDTH : ℕ := 1024

def RENDER_HEIGHT : ℕ := 512

@[simp] theorem NUM_LAT_eq : NUM_LAT = 91 := by
  norm_num [NUM_LAT, LAT_MAX, LAT_MIN, GRID_STEP]
  rfl

@[simp] theorem NUM_LNG_eq : NUM_LNG = 181 := by
  norm_num [NUM_LNG, LNG_MAX, LNG_MIN, GRID_STEP]
  rfl

theorem NUM_POINTS_eq : NUM_POINTS = 16471 := by
  norm_num [NUM_POINTS]

/- ── Color Ramps ── -/

def THERMAL_STOPS : List Stop :=
  [⟨-30, (20, 40, 150)⟩, ⟨5, (60, 130, 255)⟩, ⟨10, (255, 255, 255)⟩,
   ⟨15.5, (255, 255, 255)⟩, ⟨18, (255, 235, 50)⟩, ⟨25, (255, 220, 40)⟩,
   ⟨26.7, (255, 160, 20)⟩, ⟨32, (255, 40, 20)⟩, ⟨50, (150, 0, 0)⟩]

def CLASSIC_STOPS : List Stop :=
  [⟨-20, (30, 100, 240)⟩, ⟨-5, (50, 160, 200)⟩, ⟨10, (60, 200, 90)⟩,
   ⟨25, (235, 220, 55)⟩, ⟨40, (210, 50, 30)⟩]

def EARTH_STOPS : List Stop :=
  [⟨-30, (15, 25, 110)⟩, ⟨5, (55, 110, 225)⟩, ⟨10, (200, 190, 85)⟩,
   ⟨16, (220, 190, 55)⟩, ⟨18, (225, 175, 40)⟩, ⟨25, (220, 145, 30)⟩,
   ⟨27, (215, 110, 20)⟩, ⟨32, (200, 40, 15)⟩, ⟨50, (120, 0, 0)⟩]

def VIVID_STOPS : List Stop :=
  [⟨4, (30, 100, 240)⟩, ⟨10, (80, 180, 255)⟩, ⟨18, (255, 235, 0)⟩,
   ⟨24, (255, 130, 0)⟩, ⟨32, (240, 10, 0)⟩]

def COLORWAY_MAP : Colorway → List Stop
  | .thermal => THERMAL_STOPS
  | .classic => CLASSIC_STOPS
  | .earth => EARTH_STOPS
  | .vivid => VIVID_STOPS

/- ── Color Mapping ── -/

/-- The interpolation performed by the body of `tempToRGB`'s bracket loop:
`p = (t - a.t) / (b.t - a.t)`, each channel `Math.round(a.c + (b.c - a.c)*p)`. -/
def interpStop (a b : Stop) (tv : ℚ) : ℤ × ℤ × ℤ :=
  let p := (tv - a.t) / (b.t - a.t)
  (jsRound ((a.c.1 : ℚ) + ((b.c.1 : ℚ) - (a.c.1 : ℚ)) * p),
   jsRound ((a.c.2.1 : ℚ) + ((b.c.2.1 : ℚ) - (a.c.2.1 : ℚ)) * p),
   jsRound ((a.c.2.2 : ℚ) + ((b.c.2.2 : ℚ) - (a.c.2.2 : ℚ)) * p))

/-- The bracket loop of `tempToRGB`: scan consecutive stop pairs in order,
return the interpolation at the first pair with `a.t ≤ t ∧ t ≤ b.t`
(the JS loop returns inside the loop at the first hit), else the defensive
white fallback. -/
def rampLoop (tv : ℚ) (stops : List Stop) : ℤ × ℤ × ℤ :=
  ((stops.zip stops.tail).foldl
      (fun acc ab =>
        if acc.isSome then acc
        else if ab.1.t ≤ tv ∧ tv ≤ ab.2.t then some (interpStop ab.1 ab.2 tv) else none)
      none).getD (255, 255, 255)

/-- `tempToRGB(t, stops)` of src/unnamed/part_000 lines 70–91.  `t === null`
and `t !== t` (NaN) both arrive as `none`.  The `stops[0]` / `stops[length-1]`
accesses presuppose a non-empty table (JS throws on an empty one; the default
below is never reached under the ≥ 2 stop contract). -/
def tempToRGB (t : JSNum) (stops : List Stop) : ℤ × ℤ × ℤ :=
  t.elim (255, 255, 255) (fun tv =>
    let first := stops.headD ⟨0, (255, 255, 255)⟩
    let last := stops.getLastD ⟨0, (255, 255, 255)⟩
    if tv ≤ first.t then first.c
    else if last.t ≤ tv then last.c
    else rampLoop tv stops)

/- ── Bicubic Interpolation ── -/

def catmullRomWeights (t : ℚ) : List ℚ :=
  [(-(t^3) + 2*t^2 - t) / 2,
   (3*t^3 - 5*t^2 + 2) / 2,
   (-(3*t^3) + 4*t^2 + t) / 2,
   (t^3 - t^2) / 2]

/-- The flat index `getGridTemp` reads: clamp the latitude index to
`[0, NUM_LAT-1]`, wrap the longitude index by a single `± NUM_LNG` step. -/
def gridTempIndex (latIdx lngIdx : ℤ) : ℤ :=
  let la := max 0 (min ((NUM_LAT : ℤ) - 1) latIdx)
  let ln := if lngIdx < 0 then lngIdx + NUM_LNG
            else if (NUM_LNG : ℤ) ≤ lngIdx then lngIdx - NUM_LNG
            else lngIdx
  la * NUM_LNG + ln

/-- `getGridTemp(temps, latIdx, lngIdx)` of src/unnamed/part_000 lines 106–111. -/
def getGridTemp (temps : Grid) (latIdx lngIdx : ℤ) : Option JSNum :=
  jsRead temps (gridTempIndex latIdx lngIdx)

/-- The 16 flat indices the 4×4 gather of `bicubicSample` reads, in loop
order (`dy` outer, `dx` inner, offsets −1..2 around the floor cell). -/
def bicubicReadIndices (lat lng : ℚ) : List ℤ :=
  let gLat := (LAT_MAX - lat) / GRID_STEP
  let gLng := (lng - LNG_MIN) / GRID_STEP
  let latBase := ratFloor gLat
  let lngBase := ratFloor gLng
  ([-1, 0, 1, 2] : List ℤ).flatMap (fun dy =>
    ([-1, 0, 1, 2] : List ℤ).map (fun dx => gridTempIndex (latBase + dy) (lngBase + dx)))

/-- `bicubicSample(temps, lat, lng)` of src/unnamed/part_000 lines 113–160.
The gather keeps the raw 16 reads; `v === v` (`isJsValid`) counts a stored
NaN as invalid but an out-of-bounds `undefined` as valid, and adding
`undefined` into `validSum` poisons it to NaN, exactly as in JS.  Missing
entries of `raw` are replaced by the mean of the valid ones, then the
separable Catmull-Rom convolution is applied. -/
def bicubicSample (temps : Grid) (lat lng : ℚ) : JSNum :=
  let gLat := (LAT_MAX - lat) / GRID_STEP
  let gLng := (lng - LNG_MIN) / GRID_STEP
  let latBase := ratFloor gLat
  let lngBase := ratFloor gLng
  let tLat := gLat - (latBase : ℚ)
  let tLng := gLng - (lngBase : ℚ)
  let reads := (bicubicReadIndices lat lng).map (jsRead temps)
  let raw := reads.map readToNum
  let validCount := reads.countP isJsValid
  let validSum := reads.foldl (fun s v => if isJsValid v then jsAdd s (readToNum v) else s) (some 0)
  if validCount = 0 then none
  else
    let fallback := jsDiv validSum (some (validCount : ℚ))
    let raw2 := if validCount < 16 then raw.map (fun v => if v.isSome then v else fallback) else raw
    let wLat := catmullRomWeights tLat
    let wLng := catmullRomWeights tLng
    (List.range 4).foldl
      (fun acc row =>
        jsAdd acc (jsMul (some (wLat.getD row 0))
          ((List.range 4).foldl
            (fun rv col => jsAdd rv (jsMul (some (wLng.getD col 0)) (raw2.getD (row*4+col) none)))
            (some 0))))
      (some 0)

/- ── Nearest-Neighbor Ocean Check ── -/

/-- The flat index `isOceanNearest` reads: round both fractional grid
coordinates, wrap the longitude by a single step, clamp the latitude. -/
def oceanReadIndex (lat lng : ℚ) : ℤ :=
  let latIdx := jsRound ((LAT_MAX - lat) / GRID_STEP)
  let lngIdx0 := jsRound ((lng - LNG_MIN) / GRID_STEP)
  let lngIdx := if lngIdx0 < 0 then lngIdx0 + NUM_LNG
                else if (NUM_LNG : ℤ) ≤ lngIdx0 then lngIdx0 - NUM_LNG
                else lngIdx0
  (max 0 (min ((NUM_LAT : ℤ) - 1) latIdx)) * NUM_LNG + lngIdx

/-- `isOceanNearest(temps, lat, lng)` of src/unnamed/part_000 lines 211–219:
true iff the nearest grid cell holds NaN (`v !== v`; an `undefined`
out-of-bounds read is not NaN). -/
def isOceanNearest (temps : Grid) (lat lng : ℚ) : Bool :=
  (jsRead temps (oceanReadIndex lat lng)).elim false (fun v => v.isNone)

/- ── Box Blur (src/unnamed/part_000 lines 164–206) ── -/

/-- The window-priming loop of one horizontal pass
(`for (x = 0; x <= radius && x < w; x++) sum += …; count++`). -/
def hWindowInit (data : Buf) (rowOff radius w ch : ℕ) : ℚ × ℕ :=
  (List.range (min (radius + 1) w)).foldl
    (fun sc x => (sc.1 + (data (rowOff + x*4 + ch) : ℚ), sc.2 + 1)) (0, 0)

/-- The horizontal blur of one row and one channel: a running sum/count over
a window of half-width `radius` that shrinks at the row ends; each output is
`(sum / count + 0.5) | 0`, and the alpha byte of the scratch row is set
to 255 (as the inner `dst[rowOff + x*4 + 3] = 255` store does). -/
def hRowCh (data : Buf) (w radius rowOff ch : ℕ) (dst : Buf) : Buf :=
  ((List.range w).foldl
      (fun (st : Buf × ℚ × ℕ) x =>
        let d := upd st.1 (rowOff + x*4 + ch) (u8clampZ (jsTrunc (st.2.1 / (st.2.2 : ℚ) + 1/2)))
        let d2 := upd d (rowOff + x*4 + 3) 255
        let s1 : ℚ × ℕ :=
          if x + radius + 1 < w then (st.2.1 + (data (rowOff + (x+radius+1)*4 + ch) : ℚ), st.2.2 + 1)
          else st.2
        let s2 : ℚ × ℕ :=
          if radius ≤ x then (s1.1 - (data (rowOff + (x - radius)*4 + ch) : ℚ), s1.2 - 1)
          else s1
        (d2, s2))
      (dst, hWindowInit data rowOff radius w ch)).1

/-- Horizontal pass over every row and the three color channels: reads
`data`, writes `dst`. -/
def hPassAll (data : Buf) (w h radius : ℕ) (dst : Buf) : Buf :=
  (List.range h).foldl
    (fun dst y => (List.range 3).foldl (fun dst ch => hRowCh data w radius (y*w*4) ch dst) dst)
    dst

/-- The window-priming loop of one vertical pass. -/
def vWindowInit (dst : Buf) (x radius w h ch : ℕ) : ℚ × ℕ :=
  (List.range (min (radius + 1) h)).foldl
    (fun sc y => (sc.1 + (dst ((y*w + x)*4 + ch) : ℚ), sc.2 + 1)) (0, 0)

/-- The vertical blur of one column and one channel: reads `dst`, writes
`data` (color channels only — the alpha bytes of `data` are untouched). -/
def vColCh (dst : Buf) (w h radius x ch : ℕ) (data : Buf) : Buf :=
  ((List.range h).foldl
      (fun (st : Buf × ℚ × ℕ) y =>
        let d := upd st.1 ((y*w + x)*4 + ch) (u8clampZ (jsTrunc (st.2.1 / (st.2.2 : ℚ) + 1/2)))
        let s1 : ℚ × ℕ :=
          if y + radius + 1 < h then (st.2.1 + (dst (((y+radius+1)*w + x)*4 + ch) : ℚ), st.2.2 + 1)
          else st.2
        let s2 : ℚ × ℕ :=
          if radius ≤ y then (s1.1 - (dst (((y - radius)*w + x)*4 + ch) : ℚ), s1.2 - 1)
          else s1
        (d, s2))
      (data, vWindowInit dst x radius w h ch)).1

/-- Vertical pass over every column and the three color channels. -/
def vPassAll (dst : Buf) (w h radius : ℕ) (data : Buf) : Buf :=
  (List.range w).foldl
    (fun data x => (List.range 3).foldl (fun data ch => vColCh dst w h radius x ch data) data)
    data

/-- `boxBlur(data, w, h, radius, passes)`: each pass runs the horizontal
pass `data → dst` then the vertical pass `dst → data`; the scratch buffer
`dst` is allocated once (zero-initialized) and carried across passes.
Returns the final `data`. -/
def boxBlur (data : Buf) (w h radius passes : ℕ) : Buf :=
  ((List.range passes).foldl
      (fun (st : Buf × Buf) _ =>
        let dst := hPassAll st.1 w h radius st.2
        (vPassAll dst w h radius st.1, dst))
      (data, fun _ => 0)).1

/- ── Render Full Pixel Data (src/unnamed/part_000 lines 223–273) ── -/

/-- `lat = 90 - (y / h) * 180` of the pixel loop. -/
def pixelLat (y h : ℕ) : ℚ := 90 - ((y : ℚ) / (h : ℚ)) * 180

/-- `lng = (x / w) * 360 - 180` of the pixel loop. -/
def pixelLng (x w : ℕ) : ℚ := ((x : ℚ) / (w : ℚ)) * 360 - 180

/-- The body of the per-pixel double loop: record the ocean mask bit at
`y*w + x` and write the pixel's four bytes (white for ocean, else the
color-mapped bicubic sample). -/
def pixelStep (temps : Grid) (stops : List Stop) (w h y : ℕ)
    (st : Buf × (ℕ → Bool)) (x : ℕ) : Buf × (ℕ → Bool) :=
  let lat := pixelLat y h
  let lng := pixelLng x w
  let ocean := isOceanNearest temps lat lng
  let mask := fun j => if j = y*w + x then ocean else st.2 j
  let idx := (y*w + x) * 4
  let data :=
    if ocean then write4 st.1 idx 255 255 255 255
    else
      let temp := bicubicSample temps lat lng
      let rgb := tempToRGB temp stops
      write4 st.1 idx (u8clampZ rgb.1) (u8clampZ rgb.2.1) (u8clampZ rgb.2.2) 255
  (data, mask)

/-- The double loop of `renderPixelData`: returns the filled RGBA buffer and
the ocean mask (`temp !== temp ? null : temp` passes NaN to `tempToRGB` as
the missing value, which `JSNum` already represents). -/
def renderLoop (temps : Grid) (stops : List Stop) (w h : ℕ) : Buf × (ℕ → Bool) :=
  (List.range h).foldl
    (fun st y => (List.range w).foldl (fun st x => pixelStep temps stops w h y st x) st)
    ((fun _ => 0), (fun _ => false))

/-- The post-blur re-stamp loop: set the RGB bytes of every masked pixel
back to pure white (alpha untouched). -/
def restamp (mask : ℕ → Bool) (n : ℕ) (data : Buf) : Buf :=
  (List.range n).foldl
    (fun d i => if mask i then upd (upd (upd d (i*4) 255) (i*4 + 1) 255) (i*4 + 2) 255 else d)
    data

/-- `Math.max(1, Math.round(opts.blurRadius * w / 2048))`. -/
def scaledRadius (blurRadius : ℚ) (w : ℕ) : ℕ :=
  (max 1 (jsRound (blurRadius * (w : ℚ) / 2048))).toNat

/-- `renderPixelData(temps, opts, w, h)` of src/unnamed/part_000 lines
223–273, with the `w === undefined` / `h === undefined` defaults. -/
def renderPixelData (temps : Grid) (opts : RenderOptions) (wOpt hOpt : Option ℕ) : Buf :=
  let w := wOpt.getD RENDER_WIDTH
  let h := hOpt.getD RENDER_HEIGHT
  let stops := opts.customStops.getD (COLORWAY_MAP opts.colorway)
  let dm := renderLoop temps stops w h
  if 0 < opts.blurRadius then
    restamp dm.2 (w * h) (boxBlur dm.1 w h (scaledRadius opts.blurRadius w) 3)
  else dm.1

end Render

namespace Worker

/- ── Grid Config (src/thermal-worker.js lines 7–13, inlined copy) ── -/

def GRID_STEP : ℚ := 2

def LAT_MIN : ℚ := -90

def LAT_MAX : ℚ := 90

def LNG_MIN : ℚ := -180

/-- `Math.floor((90 - LAT_MIN) / GRID_STEP) + 1` = 91. -/
def NUM_LAT : ℕ := (ratFloor ((90 - LAT_MIN) / GRID_STEP)).toNat + 1

/-- `Math.floor((180 - LNG_MIN) / GRID_STEP) + 1` = 181. -/
def NUM_LNG : ℕ := (ratFloor ((180 - LNG_MIN) / GRID_STEP)).toNat + 1

def NUM_POINTS : ℕ := NUM_LAT * NUM_LNG

/- ── Color Ramps (duplicated tables, lines 17–62) ── -/

def THERMAL_STOPS : List Stop :=
  [⟨-30, (20, 40, 150)⟩, ⟨5, (60, 130, 255)⟩, ⟨10, (255, 255, 255)⟩,
   ⟨15.5, (255, 255, 255)⟩, ⟨18, (255, 235, 50)⟩, ⟨25, (255, 220, 40)⟩,
   ⟨26.7, (255, 160, 20)⟩, ⟨32, (255, 40, 20)⟩, ⟨50, (150, 0, 0)⟩]

def CLASSIC_STOPS : List Stop :=
  [⟨-20, (30, 100, 240)⟩, ⟨-5, (50, 160, 200)⟩, ⟨10, (60, 200, 90)⟩,
   ⟨25, (235, 220, 55)⟩, ⟨40, (210, 50, 30)⟩]

def EARTH_STOPS : List Stop :=
  [⟨-30, (15, 25, 110)⟩, ⟨5, (55, 110, 225)⟩, ⟨10, (200, 190, 85)⟩,
   ⟨16, (220, 190, 55)⟩, ⟨18, (225, 175, 40)⟩, ⟨25, (220, 145, 30)⟩,
   ⟨27, (215, 110, 20)⟩, ⟨32, (200, 40, 15)⟩, ⟨50, (120, 0, 0)⟩]

def VIVID_STOPS : List Stop :=
  [⟨4, (30, 100, 240)⟩, ⟨10, (80, 180, 255)⟩, ⟨18, (255, 235, 0)⟩,
   ⟨24, (255, 130, 0)⟩, ⟨32, (240, 10, 0)⟩]

def COLORWAY_MAP : Colorway → List Stop
  | .thermal => THERMAL_STOPS
  | .classic => CLASSIC_STOPS
  | .earth => EARTH_STOPS
  | .vivid => VIVID_STOPS

/- ── Color Mapping (duplicated, lines 66–83) ── -/

def interpStop (a b : Stop) (tv : ℚ) : ℤ × ℤ × ℤ :=
  let p := (tv - a.t) / (b.t - a.t)
  (jsRound ((a.c.1 : ℚ) + ((b.c.1 : ℚ) - (a.c.1 : ℚ)) * p),
   jsRound ((a.c.2.1 : ℚ) + ((b.c.2.1 : ℚ) - (a.c.2.1 : ℚ)) * p),
   jsRound ((a.c.2.2 : ℚ) + ((b.c.2.2 : ℚ) - (a.c.2.2 : ℚ)) * p))

def rampLoop (tv : ℚ) (stops : List Stop) : ℤ × ℤ × ℤ :=
  ((stops.zip stops.tail).foldl
      (fun acc ab =>
        if acc.isSome then acc
        else if ab.1.t ≤ tv ∧ tv ≤ ab.2.t then some (interpStop ab.1 ab.2 tv) else none)
      none).getD (255, 255, 255)

def tempToRGB (t : JSNum) (stops : List Stop) : ℤ × ℤ × ℤ :=
  t.elim (255, 255, 255) (fun tv =>
    let first := stops.headD ⟨0, (255, 255, 255)⟩
    let last := stops.getLastD ⟨0, (255, 255, 255)⟩
    if tv ≤ first.t then first.c
    else if last.t ≤ tv then last.c
    else rampLoop tv stops)

/- ── Bicubic Interpolation (duplicated, lines 87–138) ── -/

def catmullRomWeights (t : ℚ) : List ℚ :=
  [(-(t^3) + 2*t^2 - t) / 2,
   (3*t^3 - 5*t^2 + 2) / 2,
   (-(3*t^3) + 4*t^2 + t) / 2,
   (t^3 - t^2) / 2]

def gridTempIndex (latIdx lngIdx : ℤ) : ℤ :=
  let la := max 0 (min ((NUM_LAT : ℤ) - 1) latIdx)
  let ln := if lngIdx < 0 then lngIdx + NUM_LNG
            else if (NUM_LNG : ℤ) ≤ lngIdx then lngIdx - NUM_LNG
            else lngIdx
  la * NUM_LNG + ln

def getGridTemp (temps : Grid) (latIdx lngIdx : ℤ) : Option JSNum :=
  jsRead temps (gridTempIndex latIdx lngIdx)

def bicubicReadIndices (lat lng : ℚ) : List ℤ :=
  let gLat := (90 - lat) / GRID_STEP
  let gLng := (lng - LNG_MIN) / GRID_STEP
  let latBase := ratFloor gLat
  let lngBase := ratFloor gLng
  ([-1, 0, 1, 2] : List ℤ).flatMap (fun dy =>
    ([-1, 0, 1, 2] : List ℤ).map (fun dx => gridTempIndex (latBase + dy) (lngBase + dx)))

def bicubicSample (temps : Grid) (lat lng : ℚ) : JSNum :=
  let gLat := (90 - lat) / GRID_STEP
  let gLng := (lng - LNG_MIN) / GRID_STEP
  let latBase := ratFloor gLat
  let lngBase := ratFloor gLng
  let tLat := gLat - (latBase : ℚ)
  let tLng := gLng - (lngBase : ℚ)
  let reads := (bicubicReadIndices lat lng).map (jsRead temps)
  let raw := reads.map readToNum
  let validCount := reads.countP isJsValid
  let validSum := reads.foldl (fun s v => if isJsValid v then jsAdd s (readToNum v) else s) (some 0)
  if validCount = 0 then none
  else
    let fallback := jsDiv validSum (some (validCount : ℚ))
    let raw2 := if validCount < 16 then raw.map (fun v => if v.isSome then v else fallback) else raw
    let wLat := catmullRomWeights tLat
    let wLng := catmullRomWeights tLng
    (List.range 4).foldl
      (fun acc row =>
        jsAdd acc (jsMul (some (wLat.getD row 0))
          ((List.range 4).foldl
            (fun rv col => jsAdd rv (jsMul (some (wLng.getD col 0)) (raw2.getD (row*4+col) none)))
            (some 0))))
      (some 0)

/- ── Box Blur (duplicated, lines 142–174) ── -/

def hWindowInit (data : Buf) (rowOff radius w ch : ℕ) : ℚ × ℕ :=
  (List.range (min (radius + 1) w)).foldl
    (fun sc x => (sc.1 + (data (rowOff + x*4 + ch) : ℚ), sc.2 + 1)) (0, 0)

def hRowCh (data : Buf) (w radius rowOff ch : ℕ) (dst : Buf) : Buf :=
  ((List.range w).foldl
      (fun (st : Buf × ℚ × ℕ) x =>
        let d := upd st.1 (rowOff + x*4 + ch) (u8clampZ (jsTrunc (st.2.1 / (st.2.2 : ℚ) + 1/2)))
        let d2 := upd d (rowOff + x*4 + 3) 255
        let s1 : ℚ × ℕ :=
          if x + radius + 1 < w then (st.2.1 + (data (rowOff + (x+radius+1)*4 + ch) : ℚ), st.2.2 + 1)
          else st.2
        let s2 : ℚ × ℕ :=
          if radius ≤ x then (s1.1 - (data (rowOff + (x - radius)*4 + ch) : ℚ), s1.2 - 1)
          else s1
        (d2, s2))
      (dst, hWindowInit data rowOff radius w ch)).1

def hPassAll (data : Buf) (w h radius : ℕ) (dst : Buf) : Buf :=
  (List.range h).foldl
    (fun dst y => (List.range 3).foldl (fun dst ch => hRowCh data w radius (y*w*4) ch dst) dst)
    dst

def vWindowInit (dst : Buf) (x radius w h ch : ℕ) : ℚ × ℕ :=
  (List.range (min (radius + 1) h)).foldl
    (fun sc y => (sc.1 + (dst ((y*w + x)*4 + ch) : ℚ), sc.2 + 1)) (0, 0)

def vColCh (dst : Buf) (w h radius x ch : ℕ) (data : Buf) : Buf :=
  ((List.range h).foldl
      (fun (st : Buf × ℚ × ℕ) y =>
        let d := upd st.1 ((y*w + x)*4 + ch) (u8clampZ (jsTrunc (st.2.1 / (st.2.2 : ℚ) + 1/2)))
        let s1 : ℚ × ℕ :=
          if y + radius + 1 < h then (st.2.1 + (dst (((y+radius+1)*w + x)*4 + ch) : ℚ), st.2.2 + 1)
          else st.2
        let s2 : ℚ × ℕ :=
          if radius ≤ y then (s1.1 - (dst (((y - radius)*w + x)*4 + ch) : ℚ), s1.2 - 1)
          else s1
        (d, s2))
      (data, vWindowInit dst x radius w h ch)).1

def vPassAll (dst : Buf) (w h radius : ℕ) (data : Buf) : Buf :=
  (List.range w).foldl
    (fun data x => (List.range 3).foldl (fun data ch => vColCh dst w h radius x ch data) data)
    data

def boxBlur (data : Buf) (w h radius passes : ℕ) : Buf :=
  ((List.range passes).foldl
      (fun (st : Buf × Buf) _ =>
        let dst := hPassAll st.1 w h radius st.2
        (vPassAll dst w h radius st.1, dst))
      (data, fun _ => 0)).1

/- ── Nearest-Neighbor Ocean Check (duplicated, lines 178–186) ── -/

def oceanReadIndex (lat lng : ℚ) : ℤ :=
  let latIdx := jsRound ((90 - lat) / GRID_STEP)
  let lngIdx0 := jsRound ((lng - LNG_MIN) / GRID_STEP)
  let lngIdx := if lngIdx0 < 0 then lngIdx0 + NUM_LNG
                else if (NUM_LNG : ℤ) ≤ lngIdx0 then lngIdx0 - NUM_LNG
                else lngIdx0
  (max 0 (min ((NUM_LAT : ℤ) - 1) latIdx)) * NUM_LNG + lngIdx

def isOceanNearest (temps : Grid) (lat lng : ℚ) : Bool :=
  (jsRead temps (oceanReadIndex lat lng)).elim false (fun v => v.isNone)

/- ── Render Pixel Data (duplicated, lines 190–234; no default size) ── -/

def pixelLat (y h : ℕ) : ℚ := 90 - ((y : ℚ) / (h : ℚ)) * 180

def pixelLng (x w : ℕ) : ℚ := ((x : ℚ) / (w : ℚ)) * 360 - 180

def pixelStep (temps : Grid) (stops : List Stop) (w h y : ℕ)
    (st : Buf × (ℕ → Bool)) (x : ℕ) : Buf × (ℕ → Bool) :=
  let lat := pixelLat y h
  let lng := pixelLng x w
  let ocean := isOceanNearest temps lat lng
  let mask := fun j => if j = y*w + x then ocean else st.2 j
  let idx := (y*w + x) * 4
  let data :=
    if ocean then write4 st.1 idx 255 255 255 255
    else
      let temp := bicubicSample temps lat lng
      let rgb := tempToRGB temp stops
      write4 st.1 idx (u8clampZ rgb.1) (u8clampZ rgb.2.1) (u8clampZ rgb.2.2) 255
  (data, mask)

def renderLoop (temps : Grid) (stops : List Stop) (w h : ℕ) : Buf × (ℕ → Bool) :=
  (List.range h).foldl
    (fun st y => (List.range w).foldl (fun st x => pixelStep temps stops w h y st x) st)
    ((fun _ => 0), (fun _ => false))

def restamp (mask : ℕ → Bool) (n : ℕ) (data : Buf) : Buf :=
  (List.range n).foldl
    (fun d i => if mask i then upd (upd (upd d (i*4) 255) (i*4 + 1) 255) (i*4 + 2) 255 else d)
    data

def scaledRadius (blurRadius : ℚ) (w : ℕ) : ℕ :=
  (max 1 (jsRound (blurRadius * (w : ℚ) / 2048))).toNat

/-- `renderPixelData(temps, opts, w, h)` of src/thermal-worker.js lines
190–234 (the worker's copy always receives explicit dimensions). -/
def renderPixelData (temps : Grid) (opts : RenderOptions) (w h : ℕ) : Buf :=
  let stops := opts.customStops.getD (COLORWAY_MAP opts.colorway)
  let dm := renderLoop temps stops w h
  if 0 < opts.blurRadius then
    restamp dm.2 (w * h) (boxBlur dm.1 w h (scaledRadius opts.blurRadius w) 3)
  else dm.1

/- ── Atlas Constants and Geometry (lines 238–258) ── -/

def FRAME_W : ℕ := 512

def FRAME_H : ℕ := 256

def ATLAS_COLS : ℕ := 16

/-- `Math.ceil(numDays / ATLAS_COLS)` in exact arithmetic. -/
def atlasRows (numDays : ℕ) : ℕ := (numDays + ATLAS_COLS - 1) / ATLAS_COLS

/-- `ATLAS_COLS * FRAME_W`. -/
def atlasW : ℕ := ATLAS_COLS * FRAME_W

/-- `atlasRows * FRAME_H`, the unpadded atlas height. -/
def rawAtlasH (numDays : ℕ) : ℕ := atlasRows numDays * FRAME_H

/-- `Math.pow(2, Math.ceil(Math.log2(rawH)))` in exact arithmetic:
`Nat.clog 2 n` is the ceiling of log₂ for positive `n`. -/
def atlasH (numDays : ℕ) : ℕ := 2 ^ Nat.clog 2 (rawAtlasH numDays)

/-- `day % ATLAS_COLS`, the tile column of a day. -/
def dayCol (day : ℕ) : ℕ := day % ATLAS_COLS

/-- `Math.floor(day / ATLAS_COLS)`, the tile row of a day. -/
def dayRow (day : ℕ) : ℕ := day / ATLAS_COLS

/- ── Atlas Job Messages (lines 242–300) ── -/

/-- A message the worker posts: one `progress` per completed day, and the
single terminal `atlas` result carrying the geometry.  (The encoded JPEG
bytes ride along with the real `atlas` message; encoding is outside the
embedding and carries no claim.) -/
inductive Msg
  | progress (done total : ℕ)
  | atlas (numDays cols rows frameW frameH : ℕ)
deriving DecidableEq

/-- The day loop of `renderAtlas` over the remaining day indices, recording
the posted messages.  `cancelAt d` is the value of the module-level
`cancelled` flag as read at the checkpoint before day `d` starts
(`if (cancelled) return;`), and `cancelAt numDays` is its value at the final
pre-encode checkpoint.  Rendering a day (`renderPixelData` on
`allTemps.subarray(day*NUM_POINTS, (day+1)*NUM_POINTS)`) and compositing it
into the OffscreenCanvas affect no message, so the trace does not depend on
`allTemps` — the job performs no validation of the grid length. -/
def atlasMsgsFrom (allTemps : Grid) (numDays : ℕ) (cancelAt : ℕ → Bool) : List ℕ → List Msg
  | [] =>
    if cancelAt numDays then []
    else [Msg.atlas numDays ATLAS_COLS (atlasRows numDays) FRAME_W FRAME_H]
  | day :: rest =>
    if cancelAt day then []
    else Msg.progress (day + 1) numDays :: atlasMsgsFrom allTemps numDays cancelAt rest

/-- The messages `renderAtlas(allTemps, numDays, opts)` posts, given the
cancellation-flag observations `cancelAt`.  (The `await` the source performs
every 5 days only determines at which checkpoints a cancel request can in
fact have been delivered; quantifying over arbitrary observation functions
covers every schedule.) -/
def renderAtlasMsgs (allTemps : Grid) (numDays : ℕ) (cancelAt : ℕ → Bool) : List Msg :=
  atlasMsgsFrom allTemps numDays cancelAt (List.range numDays)

end Worker

/- ══ Generic buffer / fold lemmas ══ -/

/-- A fold whose every step preserves an observation `g` preserves it overall. -/
theorem foldl_fix {σ β α : Type _} (f : σ → β → σ) (g : σ → α) (l : List β) (s : σ)
    (h : ∀ s' b, b ∈ l → g (f s' b) = g s') : g (l.foldl f s) = g s := by
  induction l generalizing s with
  | nil => rfl
  | cons a tl ih =>
    rw [List.foldl_cons, ih (f s a) (fun s' b hb => h s' b (List.mem_cons_of_mem a hb))]
    exact h s a (List.mem_cons_self a tl)

/-- `range (i+1+m)` split at the element `i`. -/
theorem range_split (i m : ℕ) :
    List.range (i + 1 + m) = (List.range i ++ [i]) ++ List.range' (i + 1) m := by
  rw [List.range_eq_range' (i + 1 + m), show i + 1 + m = m + (i + 1) by omega,
      ← List.range'_append 0 (i + 1) m 1]
  simp only [one_mul, Nat.zero_add]
  rw [← List.range_eq_range' (i + 1), List.range_succ]

/-- Byte indices of distinct pixels are distinct. -/
theorem byte_ne (p q ch ch' : ℕ) (hch : ch < 4) (hch' : ch' < 4) (hpq : p ≠ q) :
    p * 4 + ch ≠ q * 4 + ch' := by omega

/-- Pixels of distinct rows have distinct linear indices. -/
theorem pixLinear_lt (w x x' y y' : ℕ) (hx : x < w) (hlt : y < y') :
    y * w + x < y' * w + x' := by
  have hle : (y + 1) * w ≤ y' * w := Nat.mul_le_mul_right w hlt
  calc y * w + x < y * w + w := by omega
    _ = (y + 1) * w := by ring
    _ ≤ y' * w := hle
    _ ≤ y' * w + x' := Nat.le_add_right _ _

theorem pixLinear_ne (w x x' y y' : ℕ) (hx : x < w) (hx' : x' < w) (hne : y ≠ y') :
    y * w + x ≠ y' * w + x' := by
  rcases Nat.lt_or_ge y y' with hlt | hge
  · exact (pixLinear_lt w x x' y y' hx hlt).ne
  · exact (pixLinear_lt w x' x y' y hx' (lt_of_le_of_ne hge (Ne.symm hne))).ne'

theorem write4_at0 (b : Buf) (idx r g bl a : ℕ) : write4 b idx r g bl a idx = r := by
  simp only [write4]
  rw [upd_other _ _ _ _ (by omega), upd_other _ _ _ _ (by omega),
      upd_other _ _ _ _ (by omega), upd_same]

theorem write4_at1 (b : Buf) (idx r g bl a : ℕ) : write4 b idx r g bl a (idx + 1) = g := by
  simp only [write4]
  rw [upd_other _ _ _ _ (by omega), upd_other _ _ _ _ (by omega), upd_same]

theorem write4_at2 (b : Buf) (idx r g bl a : ℕ) : write4 b idx r g bl a (idx + 2) = bl := by
  simp only [write4]
  rw [upd_other _ _ _ _ (by omega), upd_same]

theorem write4_at3 (b : Buf) (idx r g bl a : ℕ) : write4 b idx r g bl a (idx + 3) = a := by
  simp only [write4]
  rw [upd_same]

theorem write4_other (b : Buf) (idx r g bl a j : ℕ) (hj : ∀ ch, ch < 4 → j ≠ idx + ch) :
    write4 b idx r g bl a j = b j := by
  simp only [write4]
  rw [upd_other _ _ _ _ (hj 3 (by omega)), upd_other _ _ _ _ (hj 2 (by omega)),
      upd_other _ _ _ _ (hj 1 (by omega)),
      upd_other _ _ _ _ (by have := hj 0 (by omega); omega)]

namespace Render

/- ══ Characterization of the render loop ══ -/

/-- The value `renderPixelData`'s first (pre-blur) loop leaves in channel
`ch` of pixel `(x, y)`. -/
def basePixel (temps : Grid) (stops : List Stop) (w h x y ch : ℕ) : ℕ :=
  if isOceanNearest temps (pixelLat y h) (pixelLng x w) then 255
  else if ch = 3 then 255
  else
    let rgb := tempToRGB (bicubicSample temps (pixelLat y h) (pixelLng x w)) stops
    if ch = 0 then u8clampZ rgb.1 else if ch = 1 then u8clampZ rgb.2.1 else u8clampZ rgb.2.2

theorem pixelStep_data_at (temps : Grid) (stops : List Stop) (w h y : ℕ)
    (st : Buf × (ℕ → Bool)) (x ch : ℕ) (hch : ch < 4) :
    (pixelStep temps stops w h y st x).1 ((y*w + x)*4 + ch) = basePixel temps stops w h x y ch := by
  unfold pixelStep basePixel
  by_cases hoc : isOceanNearest temps (pixelLat y h) (pixelLng x w)
  · simp only [hoc, if_true]
    interval_cases ch
    · simpa using write4_at0 st.1 ((y*w + x)*4) 255 255 255 255
    · simpa using write4_at1 st.1 ((y*w + x)*4) 255 255 255 255
    · simpa using write4_at2 st.1 ((y*w + x)*4) 255 255 255 255
    · simpa using write4_at3 st.1 ((y*w + x)*4) 255 255 255 255
  · simp only [hoc, if_false]
    interval_cases ch
    · simpa using write4_at0 st.1 ((y*w + x)*4) _ _ _ 255
    · simpa using write4_at1 st.1 ((y*w + x)*4) _ _ _ 255
    · simpa using write4_at2 st.1 ((y*w + x)*4) _ _ _ 255
    · simpa using write4_at3 st.1 ((y*w + x)*4) _ _ _ 255

theorem pixelStep_data_notat (temps : Grid) (stops : List Stop) (w h y : ℕ)
    (st : Buf × (ℕ → Bool)) (x j : ℕ) (hj : ∀ ch, ch < 4 → j ≠ (y*w + x)*4 + ch) :
    (pixelStep temps stops w h y st x).1 j = st.1 j := by
  unfold pixelStep
  by_cases hoc : isOceanNearest temps (pixelLat y h) (pixelLng x w) <;>
    simp only [hoc, if_true, if_false] <;> exact write4_other _ _ _ _ _ _ _ hj

theorem pixelStep_mask_at (temps : Grid) (stops : List Stop) (w h y : ℕ)
    (st : Buf × (ℕ → Bool)) (x : ℕ) :
    (pixelStep temps stops w h y st x).2 (y*w + x)
      = isOceanNearest temps (pixelLat y h) (pixelLng x w) := by
  simp [pixelStep]

theorem pixelStep_mask_notat (temps : Grid) (stops : List Stop) (w h y : ℕ)
    (st : Buf × (ℕ → Bool)) (x k : ℕ) (hk : k ≠ y*w + x) :
    (pixelStep temps stops w h y st x).2 k = st.2 k := by
  simp [pixelStep, hk]

theorem rowFold_data_at (temps : Grid) (stops : List Stop) (w h y : ℕ)
    (st : Buf × (ℕ → Bool)) (x ch : ℕ) (hx : x < w) (hch : ch < 4) :
    ((List.range w).foldl (fun st x => pixelStep temps stops w h y st x) st).1 ((y*w + x)*4 + ch)
      = basePixel temps stops w h x y ch := by
  have hw : List.range w = (List.range x ++ [x]) ++ List.range' (x + 1) (w - x - 1) := by
    rw [← range_split]
    congr 1
    omega
  rw [hw, List.foldl_append, List.foldl_append]
  rw [foldl_fix _ (fun st : Buf × (ℕ → Bool) => st.1 ((y*w + x)*4 + ch)) _ _ ?_]
  · simpa using pixelStep_data_at temps stops w h y _ x ch hch
  · intro s' b hb
    have hbx : x + 1 ≤ b := (List.mem_range'_1.1 hb).1
    refine pixelStep_data_notat temps stops w h y s' b _ ?_
    intro ch' hch'
    have key : ∀ p : ℕ, (p + x)*4 + ch ≠ (p + b)*4 + ch' := fun p => by omega
    exact key (y*w)

theorem rowFold_data_notat (temps : Grid) (stops : List Stop) (w h y : ℕ)
    (st : Buf × (ℕ → Bool)) (j : ℕ) (hj : ∀ x' ch', x' < w → ch' < 4 → j ≠ (y*w + x')*4 + ch') :
    ((List.range w).foldl (fun st x => pixelStep temps stops w h y st x) st).1 j = st.1 j := by
  refine foldl_fix _ (fun st : Buf × (ℕ → Bool) => st.1 j) _ _ ?_
  intro s' b hb
  exact pixelStep_data_notat temps stops w h y s' b j
    (fun ch' hch' => hj b ch' (List.mem_range.1 hb) hch')

theorem renderLoop_data (temps : Grid) (stops : List Stop) (w h x y ch : ℕ)
    (hx : x < w) (hy : y < h) (hch : ch < 4) :
    (renderLoop temps stops w h).1 ((y*w + x)*4 + ch) = basePixel temps stops w h x y ch := by
  unfold renderLoop
  have hh : List.range h = (List.range y ++ [y]) ++ List.range' (y + 1) (h - y - 1) := by
    rw [← range_split]
    congr 1
    omega
  rw [hh, List.foldl_append, List.foldl_append]
  rw [foldl_fix _ (fun st : Buf × (ℕ → Bool) => st.1 ((y*w + x)*4 + ch)) _ _ ?_]
  · simpa using rowFold_data_at temps stops w h y _ x ch hx hch
  · intro s' b hb
    have hby : y + 1 ≤ b := (List.mem_range'_1.1 hb).1
    refine rowFold_data_notat temps stops w h b s' _ ?_
    intro x' ch' hx' hch'
    exact byte_ne _ _ _ _ hch hch' (pixLinear_ne w x x' y b hx hx' (by omega))

theorem rowFold_mask_at (temps : Grid) (stops : List Stop) (w h y : ℕ)
    (st : Buf × (ℕ → Bool)) (x : ℕ) (hx : x < w) :
    ((List.range w).foldl (fun st x => pixelStep temps stops w h y st x) st).2 (y*w + x)
      = isOceanNearest temps (pixelLat y h) (pixelLng x w) := by
  have hw : List.range w = (List.range x ++ [x]) ++ List.range' (x + 1) (w - x - 1) := by
    rw [← range_split]
    congr 1
    omega
  rw [hw, List.foldl_append, List.foldl_append]
  rw [foldl_fix _ (fun st : Buf × (ℕ → Bool) => st.2 (y*w + x)) _ _ ?_]
  · simpa using pixelStep_mask_at temps stops w h y _ x
  · intro s' b hb
    have hbx : x + 1 ≤ b := (List.mem_range'_1.1 hb).1
    exact pixelStep_mask_notat temps stops w h y s' b _ (by omega)

theorem rowFold_mask_notat (temps : Grid) (stops : List Stop) (w h y : ℕ)
    (st : Buf × (ℕ → Bool)) (k : ℕ) (hk : ∀ x', x' < w → k ≠ y*w + x') :
    ((List.range w).foldl (fun st x => pixelStep temps stops w h y st x) st).2 k = st.2 k := by
  refine foldl_fix _ (fun st : Buf × (ℕ → Bool) => st.2 k) _ _ ?_
  intro s' b hb
  exact pixelStep_mask_notat temps stops w h y s' b k (hk b (List.mem_range.1 hb))

theorem renderLoop_mask (temps : Grid) (stops : List Stop) (w h x y : ℕ)
    (hx : x < w) (hy : y < h) :
    (renderLoop temps stops w h).2 (y*w + x)
      = isOceanNearest temps (pixelLat y h) (pixelLng x w) := by
  unfold renderLoop
  have hh : List.range h = (List.range y ++ [y]) ++ List.range' (y + 1) (h - y - 1) := by
    rw [← range_split]
    congr 1
    omega
  rw [hh, List.foldl_append, List.foldl_append]
  rw [foldl_fix _ (fun st : Buf × (ℕ → Bool) => st.2 (y*w + x)) _ _ ?_]
  · simpa using rowFold_mask_at temps stops w h y _ x hx
  · intro s' b hb
    have hby : y + 1 ≤ b := (List.mem_range'_1.1 hb).1
    refine rowFold_mask_notat temps stops w h b s' _ ?_
    intro x' hx'
    exact pixLinear_ne w x x' y b hx hx' (by omega)

/- ══ Re-stamp and blur footprint lemmas ══ -/

/-- The re-stamp loop never touches an alpha byte. -/
theorem restamp_alpha (mask : ℕ → Bool) (n : ℕ) (data : Buf) (j : ℕ) (hj : j % 4 = 3) :
    restamp mask n data j = data j := by
  refine foldl_fix _ (fun d : Buf => d j) _ _ ?_
  intro d i _
  by_cases hm : mask i
  · simp only [hm, if_true]
    rw [upd_other _ _ _ _ (by omega), upd_other _ _ _ _ (by omega), upd_other _ _ _ _ (by omega)]
  · simp [hm]

/-- After the re-stamp loop, a masked pixel's color channels read 255. -/
theorem restamp_rgb (mask : ℕ → Bool) (n : ℕ) (data : Buf) (i ch : ℕ)
    (hi : i < n) (hm : mask i = true) (hch : ch < 3) :
    restamp mask n data (i*4 + ch) = 255 := by
  unfold restamp
  have hn : List.range n = (List.range i ++ [i]) ++ List.range' (i + 1) (n - i - 1) := by
    rw [← range_split]
    congr 1
    omega
  rw [hn, List.foldl_append, List.foldl_append]
  rw [foldl_fix _ (fun d : Buf => d (i*4 + ch)) _ _ ?_]
  · simp only [List.foldl_cons, List.foldl_nil, hm, if_true]
    interval_cases ch
    · simp only [Nat.add_zero]
      rw [upd_other _ _ _ _ (by omega), upd_other _ _ _ _ (by omega), upd_same]
    · rw [upd_other _ _ _ _ (by omega), upd_same]
    · rw [upd_same]
  · intro d b hb
    have hbi : i + 1 ≤ b := (List.mem_range'_1.1 hb).1
    by_cases hmb : mask b
    · simp only [hmb, if_true]
      rw [upd_other _ _ _ _ (by omega), upd_other _ _ _ _ (by omega),
          upd_other _ _ _ _ (by omega)]
    · simp [hmb]

/-- A vertical blur pass writes only color channels. -/
theorem vColCh_alpha (dst : Buf) (w h radius x ch : ℕ) (data : Buf) (j : ℕ)
    (hch : ch < 3) (hj : j % 4 = 3) :
    vColCh dst w h radius x ch data j = data j := by
  unfold vColCh
  refine foldl_fix _ (fun st : Buf × ℚ × ℕ => st.1 j) _ _ ?_
  intro s' b _
  have key : ∀ p : ℕ, j ≠ p*4 + ch := fun p => by omega
  simp only
  rw [upd_other _ _ _ _ (key (b*w + x))]

theorem vPassAll_alpha (dst : Buf) (w h radius : ℕ) (data : Buf) (j : ℕ) (hj : j % 4 = 3) :
    vPassAll dst w h radius data j = data j := by
  unfold vPassAll
  refine foldl_fix _ (fun d : Buf => d j) _ _ ?_
  intro d x _
  refine foldl_fix _ (fun d : Buf => d j) _ _ ?_
  intro d' ch hch
  exact vColCh_alpha dst w h radius x ch d' j (List.mem_range.1 hch) hj

/-- `boxBlur` leaves every alpha byte of `data` unchanged (the vertical
passes are the only writes into `data`, and they touch color channels only). -/
theorem boxBlur_alpha (data : Buf) (w h radius passes : ℕ) (j : ℕ) (hj : j % 4 = 3) :
    boxBlur data w h radius passes j = data j := by
  unfold boxBlur
  refine foldl_fix _ (fun st : Buf × Buf => st.1 j) _ _ ?_
  intro s' _ _
  simp only
  exact vPassAll_alpha _ w h radius s'.1 j hj

/- ══ Index bounds ══ -/

/-- The clamped/wrapped read index of `getGridTemp` stays inside the grid
whenever the longitude index needs at most one wrap step. -/
theorem gridTempIndex_bounds (la ln : ℤ) (h1 : -(181:ℤ) ≤ ln) (h2 : ln < 362) :
    0 ≤ gridTempIndex la ln ∧ gridTempIndex la ln < 16471 := by
  unfold gridTempIndex
  simp only [NUM_LAT_eq, NUM_LNG_eq]
  push_cast
  constructor <;> (split_ifs <;> omega)

theorem pixelLat_bounds (y h : ℕ) (hy : y < h) : -90 < pixelLat y h ∧ pixelLat y h ≤ 90 := by
  unfold pixelLat
  have hh : (0:ℚ) < (h : ℚ) := by exact_mod_cast (show 0 < h by omega)
  have h01 : (0:ℚ) ≤ (y : ℚ) / (h : ℚ) := div_nonneg (by positivity) hh.le
  have h02 : (y : ℚ) / (h : ℚ) < 1 := (div_lt_one hh).2 (by exact_mod_cast hy)
  constructor <;> nlinarith [h01, h02]

theorem pixelLng_bounds (x w : ℕ) (hx : x < w) : -180 ≤ pixelLng x w ∧ pixelLng x w < 180 := by
  unfold pixelLng
  have hw : (0:ℚ) < (w : ℚ) := by exact_mod_cast (show 0 < w by omega)
  have h01 : (0:ℚ) ≤ (x : ℚ) / (w : ℚ) := div_nonneg (by positivity) hw.le
  have h02 : (x : ℚ) / (w : ℚ) < 1 := (div_lt_one hw).2 (by exact_mod_cast hx)
  constructor <;> nlinarith [h01, h02]

/-- The nearest-neighbor mask's read index stays inside the grid for any
latitude and any longitude in [−180, 180). -/
theorem oceanReadIndex_bounds (lat lng : ℚ) (h3 : -180 ≤ lng) (h4 : lng < 180) :
    0 ≤ oceanReadIndex lat lng ∧ oceanReadIndex lat lng < 16471 := by
  unfold oceanReadIndex
  have hq1 : (0:ℚ) ≤ (lng - LNG_MIN) / GRID_STEP := by
    unfold LNG_MIN GRID_STEP
    linarith
  have hq2 : (lng - LNG_MIN) / GRID_STEP < 180 := by
    unfold LNG_MIN GRID_STEP
    linarith
  have hr1 : 0 ≤ jsRound ((lng - LNG_MIN) / GRID_STEP) := by
    rw [jsRound_eq]
    exact Int.le_floor.2 (by push_cast; linarith)
  have hr2 : jsRound ((lng - LNG_MIN) / GRID_STEP) ≤ 180 := by
    rw [jsRound_eq]
    have h181 : ⌊(lng - LNG_MIN) / GRID_STEP + 1/2⌋ < (181 : ℤ) :=
      Int.floor_lt.2 (by push_cast; linarith)
    omega
  simp only [NUM_LAT_eq, NUM_LNG_eq]
  push_cast
  constructor <;> (split_ifs <;> omega)

/-- Every one of the 16 gather indices of `bicubicSample` stays inside the
grid, for latitudes in [−90, 90] and longitudes in [−180, 180). -/
theorem bicubicReadIndices_bounds (lat lng : ℚ) (_h1 : -90 ≤ lat) (_h2 : lat ≤ 90)
    (h3 : -180 ≤ lng) (h4 : lng < 180) :
    ∀ i ∈ bicubicReadIndices lat lng, 0 ≤ i ∧ i < 16471 := by
  intro i hi
  unfold bicubicReadIndices at hi
  simp only [List.mem_flatMap, List.mem_map, List.mem_cons, List.not_mem_nil, or_false] at hi
  obtain ⟨dy, hdy, dx, hdx, rfl⟩ := hi
  have hdx' : -1 ≤ dx ∧ dx ≤ 2 := by rcases hdx with rfl | rfl | rfl | rfl <;> norm_num
  have hq1 : (0:ℚ) ≤ (lng - LNG_MIN) / GRID_STEP := by
    unfold LNG_MIN GRID_STEP
    linarith
  have hq2 : (lng - LNG_MIN) / GRID_STEP < 180 := by
    unfold LNG_MIN GRID_STEP
    linarith
  have hb1 : 0 ≤ ratFloor ((lng - LNG_MIN) / GRID_STEP) := by
    rw [ratFloor_eq]
    exact Int.le_floor.2 (by push_cast; linarith)
  have hb2 : ratFloor ((lng - LNG_MIN) / GRID_STEP) ≤ 179 := by
    rw [ratFloor_eq]
    have h180 : ⌊(lng - LNG_MIN) / GRID_STEP⌋ < (180 : ℤ) := Int.floor_lt.2 (by push_cast; linarith)
    omega
  exact gridTempIndex_bounds _ _ (by omega) (by omega)

theorem bicubicReadIndices_length (lat lng : ℚ) : (bicubicReadIndices lat lng).length = 16 := rfl

/- ══ Constant-grid lemmas ══ -/

theorem jsRead_replicate (N : ℕ) (v : JSNum) (i : ℤ) (h0 : 0 ≤ i) (hN : i < (N : ℤ)) :
    jsRead (List.replicate N v) i = some v := by
  unfold jsRead
  rw [if_pos h0]
  have hlt : i.toNat < N := by omega
  simp [List.getElem?_replicate, hlt]

theorem isOcean_replicate (V : ℚ) (lat lng : ℚ) (h3 : -180 ≤ lng) (h4 : lng < 180) :
    isOceanNearest (List.replicate NUM_POINTS (some V)) lat lng = false := by
  unfold isOceanNearest
  obtain ⟨hb1, hb2⟩ := oceanReadIndex_bounds lat lng h3 h4
  rw [jsRead_replicate _ _ _ hb1 (by simp only [NUM_POINTS_eq]; push_cast; omega)]
  rfl

theorem countP_replicate_true {α : Type _} (p : α → Bool) (n : ℕ) (a : α) (h : p a = true) :
    (List.replicate n a).countP p = n := by
  induction n with
  | zero => rfl
  | succ n ih => simp [List.replicate_succ, List.countP_cons, h, ih]

theorem getD_replicate (n : ℕ) (a : JSNum) (i : ℕ) (h : i < n) :
    (List.replicate n a).getD i none = a := by
  simp [List.getD, List.getElem?_replicate, h]

theorem catmullRomWeights_sum (t : ℚ) : (catmullRomWeights t).sum = 1 := by
  simp only [catmullRomWeights, List.sum_cons, List.sum_nil]
  ring

/-- Bicubic resampling of a constant grid returns the constant. -/
theorem bicubic_replicate (V : ℚ) (lat lng : ℚ) (h1 : -90 ≤ lat) (h2 : lat ≤ 90)
    (h3 : -180 ≤ lng) (h4 : lng < 180) :
    bicubicSample (List.replicate NUM_POINTS (some V)) lat lng = some V := by
  have hall : ∀ i ∈ bicubicReadIndices lat lng,
      jsRead (List.replicate NUM_POINTS (some V)) i = some (some V) := by
    intro i hi
    obtain ⟨hb1, hb2⟩ := bicubicReadIndices_bounds lat lng h1 h2 h3 h4 i hi
    exact jsRead_replicate _ _ _ hb1 (by simp only [NUM_POINTS_eq]; push_cast; omega)
  have hreads : (bicubicReadIndices lat lng).map (jsRead (List.replicate NUM_POINTS (some V)))
      = List.replicate 16 (some (some V)) := by
    rw [List.map_congr_left hall, List.map_const', bicubicReadIndices_length]
  simp only [bicubicSample]
  rw [hreads]
  have hvalid : isJsValid (some (some V)) = true := rfl
  rw [countP_replicate_true _ _ _ hvalid]
  rw [if_neg (by norm_num : ¬((16:ℕ) = 0)), if_neg (by norm_num : ¬((16:ℕ) < 16))]
  simp only [List.map_replicate, show readToNum (some (some V)) = some V from rfl]
  rw [show List.range 4 = [0, 1, 2, 3] from rfl]
  simp only [List.foldl_cons, List.foldl_nil]
  norm_num [List.getD, List.getElem?_replicate, catmullRomWeights]
  ring

/- ══ Ramp-loop characterization ══ -/

theorem rampFold_some (tv : ℚ) (zl : List (Stop × Stop)) (v : ℤ × ℤ × ℤ) :
    zl.foldl
      (fun acc ab =>
        if acc.isSome then acc
        else if ab.1.t ≤ tv ∧ tv ≤ ab.2.t then some (interpStop ab.1 ab.2 tv) else none)
      (some v) = some v := by
  induction zl with
  | nil => rfl
  | cons ab tl ih =>
    rw [List.foldl_cons]
    simpa using ih

theorem rampLoop_cons (tv : ℚ) (a b : Stop) (rest : List Stop) :
    rampLoop tv (a :: b :: rest)
      = if a.t ≤ tv ∧ tv ≤ b.t then interpStop a b tv else rampLoop tv (b :: rest) := by
  by_cases hab : a.t ≤ tv ∧ tv ≤ b.t
  · rw [if_pos hab]
    unfold rampLoop
    rw [show (a :: b :: rest).zip (a :: b :: rest).tail
          = (a, b) :: ((b :: rest).zip rest) from rfl, List.foldl_cons]
    simp only [Option.isSome_none, Bool.false_eq_true, if_false, if_pos hab]
    rw [rampFold_some]
    rfl
  · rw [if_neg hab]
    unfold rampLoop
    rw [show (a :: b :: rest).zip (a :: b :: rest).tail
          = (a, b) :: ((b :: rest).zip rest) from rfl, List.foldl_cons]
    simp only [Option.isSome_none, Bool.false_eq_true, if_false, if_neg hab]
    rw [show (b :: rest).tail = rest from rfl]

/-- The bracket loop returns the interpolation at the first matching pair:
if every pair before index `i` has its upper stop strictly below `tv`, and
the pair at `i` brackets `tv`, the loop lands on that pair. -/
theorem rampLoop_first (tv : ℚ) (i : ℕ) :
    ∀ (stops : List Stop) (hi : i + 1 < stops.length),
      (∀ j (hj : j + 1 < stops.length), j < i → (stops.get ⟨j + 1, hj⟩).t < tv) →
      (stops.get ⟨i, by omega⟩).t ≤ tv → tv ≤ (stops.get ⟨i + 1, hi⟩).t →
      rampLoop tv stops = interpStop (stops.get ⟨i, by omega⟩) (stops.get ⟨i + 1, hi⟩) tv := by
  induction i with
  | zero =>
    intro stops hi hskip hlow hup
    cases stops with
    | nil => simp at hi
    | cons a tail =>
      cases tail with
      | nil => simp at hi
      | cons b rest =>
        rw [rampLoop_cons, if_pos ⟨hlow, hup⟩]
        rfl
  | succ i ih =>
    intro stops hi hskip hlow hup
    cases stops with
    | nil => simp at hi
    | cons a tail =>
      cases tail with
      | nil => simp at hi
      | cons b rest =>
        have hlen : i + 1 < (b :: rest).length := by
          simp at hi ⊢
          omega
        have hb : b.t < tv := hskip 0 (by simp only [List.length_cons]; omega) (by omega)
        rw [rampLoop_cons, if_neg (fun hcon => absurd hcon.2 (not_le.2 hb))]
        exact ih (b :: rest) hlen
          (fun j hj hji =>
            hskip (j + 1) (by simp only [List.length_cons] at hj ⊢; omega) (by omega)) hlow hup

/-- Interpolating exactly at the right stop of a bracket returns that
stop's color (the fraction is 1 and rounding an integer is the identity). -/
theorem jsRound_int (z : ℤ) : jsRound (z : ℚ) = z := by
  rw [jsRound_eq, Int.floor_int_add]
  norm_num

theorem interpStop_right (a b : Stop) (hne : a.t < b.t) : interpStop a b b.t = b.c := by
  unfold interpStop
  have hp : (b.t - a.t) / (b.t - a.t) = 1 := div_self (sub_ne_zero.2 hne.ne')
  simp only [hp]
  have h1 : (a.c.1 : ℚ) + ((b.c.1 : ℚ) - (a.c.1 : ℚ)) * 1 = ((b.c.1 : ℤ) : ℚ) := by ring
  have h2 : (a.c.2.1 : ℚ) + ((b.c.2.1 : ℚ) - (a.c.2.1 : ℚ)) * 1 = ((b.c.2.1 : ℤ) : ℚ) := by ring
  have h3 : (a.c.2.2 : ℚ) + ((b.c.2.2 : ℚ) - (a.c.2.2 : ℚ)) * 1 = ((b.c.2.2 : ℤ) : ℚ) := by ring
  rw [h1, h2, h3, jsRound_int, jsRound_int, jsRound_int]

theorem headD_eq_get (l : List Stop) (d : Stop) (h : 0 < l.length) :
    l.headD d = l.get ⟨0, h⟩ := by
  cases l with
  | nil => simp at h
  | cons a tl => rfl

theorem getLastD_eq_get (l : List Stop) (d : Stop) (h : 0 < l.length) :
    l.getLastD d = l.get ⟨l.length - 1, by omega⟩ := by
  cases l with
  | nil => simp at h
  | cons a tl =>
    rw [List.getLastD_eq_getLast?, List.getLast?_eq_getLast _ (by simp),
        List.getLast_eq_getElem]
    simp [List.get_eq_getElem]

/-- `tempToRGB` on a real number, with the two clamp tests written through
`List.get`. -/
theorem tempToRGB_some_eq (stops : List Stop) (h0 : 0 < stops.length) (t : ℚ) :
    tempToRGB (some t) stops =
      if t ≤ (stops.get ⟨0, h0⟩).t then (stops.get ⟨0, h0⟩).c
      else if (stops.get ⟨stops.length - 1, by omega⟩).t ≤ t then
        (stops.get ⟨stops.length - 1, by omega⟩).c
      else rampLoop t stops := by
  unfold tempToRGB
  rw [show (some t).elim ((255:ℤ), (255:ℤ), (255:ℤ)) = fun f => f t from rfl]
  simp only
  rw [headD_eq_get _ _ h0, getLastD_eq_get _ _ h0]

theorem tempToRGB_thermal_20 :
    tempToRGB (some 20) THERMAL_STOPS = (255, 231, 47) := by
  have hlen : 0 < THERMAL_STOPS.length := by norm_num [THERMAL_STOPS]
  have hinterp : interpStop ⟨18, (255, 235, 50)⟩ ⟨25, (255, 220, 40)⟩ 20 = (255, 231, 47) := by
    unfold interpStop
    norm_num [jsRound_eq]
  have hramp : rampLoop 20 THERMAL_STOPS
      = interpStop ⟨18, (255, 235, 50)⟩ ⟨25, (255, 220, 40)⟩ 20 := by
    simp only [THERMAL_STOPS]
    rw [rampLoop_cons, if_neg (by norm_num), rampLoop_cons, if_neg (by norm_num),
        rampLoop_cons, if_neg (by norm_num), rampLoop_cons, if_neg (by norm_num),
        rampLoop_cons, if_pos (by norm_num)]
  rw [tempToRGB_some_eq THERMAL_STOPS hlen 20]
  rw [if_neg (by norm_num [THERMAL_STOPS]), if_neg (by norm_num [THERMAL_STOPS]), hramp, hinterp]

/-- At an ocean pixel the pre-blur loop writes opaque white. -/
theorem basePixel_ocean (temps : Grid) (stops : List Stop) (w h x y ch : ℕ)
    (hoc : isOceanNearest temps (pixelLat y h) (pixelLng x w) = true) :
    basePixel temps stops w h x y ch = 255 := by
  unfold basePixel
  rw [if_pos hoc]

end Render

/-- The claim's reading of `getGridTemp`, written from its words: the cell at
row `clamp(latIdx, 0, NUM_LAT-1)` and column `lngIdx mod NUM_LNG`, for every
pair of integer indices. -/
def getGridTempClaimed (temps : Grid) (latIdx lngIdx : ℤ) : Option JSNum :=
  jsRead temps
    ((max 0 (min ((Render.NUM_LAT : ℤ) - 1) latIdx)) * (Render.NUM_LNG : ℤ)
      + lngIdx % (Render.NUM_LNG : ℤ))

instance stopLtTrans : IsTrans Stop (fun a b => a.t < b.t) :=
  ⟨fun _ _ _ h1 h2 => lt_trans h1 h2⟩

namespace Worker

/- ══ Atlas job lemmas ══ -/

theorem atlasMsgsFrom_clean (T : Grid) (n : ℕ) (c : ℕ → Bool) (l1 l2 : List ℕ)
    (h : ∀ d ∈ l1, c d = false) :
    atlasMsgsFrom T n c (l1 ++ l2)
      = l1.map (fun d => Msg.progress (d + 1) n) ++ atlasMsgsFrom T n c l2 := by
  induction l1 with
  | nil => rfl
  | cons a tl ih =>
    rw [List.cons_append]
    simp only [atlasMsgsFrom, h a (List.mem_cons_self a tl), Bool.false_eq_true, if_false,
      List.map_cons, List.cons_append]
    rw [ih (fun d hd => h d (List.mem_cons_of_mem a hd))]

theorem atlasMsgsFrom_atlas_mem (T : Grid) (n : ℕ) (c : ℕ → Bool) (l : List ℕ)
    (nd cols rows fw fh : ℕ)
    (hmem : Msg.atlas nd cols rows fw fh ∈ atlasMsgsFrom T n c l) :
    (∀ d ∈ l, c d = false) ∧ c n = false := by
  induction l with
  | nil =>
    by_cases hc : c n
    · simp [atlasMsgsFrom, hc] at hmem
    · exact ⟨by simp, by simpa using hc⟩
  | cons a tl ih =>
    by_cases hc : c a
    · simp [atlasMsgsFrom, hc] at hmem
    · have hmem' : Msg.atlas nd cols rows fw fh ∈ atlasMsgsFrom T n c tl := by
        simpa [atlasMsgsFrom, hc] using hmem
      obtain ⟨htl, hn⟩ := ih hmem'
      refine ⟨?_, hn⟩
      intro d hd
      rcases List.mem_cons.1 hd with rfl | hdtl
      · simpa using hc
      · exact htl d hdtl

theorem clog2_512 : Nat.clog 2 512 = 9 := by
  refine le_antisymm ((Nat.le_pow_iff_clog_le (by norm_num)).1 (by norm_num)) ?_
  have h8 : 8 < Nat.clog 2 512 :=
    (Nat.pow_lt_iff_lt_clog (by norm_num)).1 (by norm_num)
  omega

end Worker

/- ══ Claims ══ -/

/-- C3: if the cancellation flag is observed clear at the checkpoints before
days 1..k (0-indexed 0..k−1) and set at the checkpoint before day k+1
(0-indexed k), the atlas job posts exactly the k progress messages
`(done = 1..k, total = numDays)` in order and nothing else — no result
message and no further messages of any kind; and an `atlas` result message
can only appear when every one of the `numDays` day checkpoints passed, i.e.
when all days completed. -/
theorem C3_cancellation_trace (numDays k : ℕ) (cancelAt : ℕ → Bool) (hk : k < numDays)
    (hbefore : ∀ d, d < k → cancelAt d = false) (hcancel : cancelAt k = true) :
    (∀ allTemps : Grid,
      Worker.renderAtlasMsgs allTemps numDays cancelAt
        = (List.range k).map (fun d => Worker.Msg.progress (d + 1) numDays)) ∧
    (∀ (allTemps : Grid) (c : ℕ → Bool) (nd cols rows fw fh : ℕ),
      Worker.Msg.atlas nd cols rows fw fh ∈ Worker.renderAtlasMsgs allTemps numDays c →
      ∀ d, d < numDays → c d = false) := by
  constructor
  · intro T
    unfold Worker.renderAtlasMsgs
    have hsplit : List.range numDays
        = List.range k ++ (k :: List.range' (k + 1) (numDays - k - 1)) := by
      have h := range_split k (numDays - k - 1)
      rw [show k + 1 + (numDays - k - 1) = numDays by omega] at h
      simpa using h
    rw [hsplit,
      Worker.atlasMsgsFrom_clean T numDays cancelAt _ _
        (fun d hd => hbefore d (List.mem_range.1 hd))]
    simp only [Worker.atlasMsgsFrom, hcancel, if_true, List.append_nil]
  · intro T c nd cols rows fw fh hmem d hd
    exact (Worker.atlasMsgsFrom_atlas_mem T numDays c _ nd cols rows fw fh hmem).1
      d (List.mem_range.2 hd)

theorem C3_cancellation_trace_witness :
    Worker.renderAtlasMsgs [] 3 (fun d => decide (2 ≤ d))
      = [Worker.Msg.progress 1 3, Worker.Msg.progress 2 3] := by
  have h := C3_cancellation_trace 3 2 (fun d => decide (2 ≤ d)) (by norm_num)
    (fun d hd => by simp only [decide_eq_false_iff_not]; omega) (by norm_num)
  rw [h.1 []]
  rfl

/-- C4: the atlas has 16 columns of 512×256 tiles, `rows = ceil(numDays/16)`,
width `16*512`, and height the least power of two at least `rows*256`;
day `d` is placed at tile `(col = d mod 16, row = d div 16)`; in particular
17 days give 2 rows with height 512 (a power of two) and day 16 lands at
column 0, row 1. -/
theorem C4_atlas_geometry (numDays : ℕ) (h1 : 1 ≤ numDays) :
    Worker.ATLAS_COLS = 16 ∧ Worker.FRAME_W = 512 ∧ Worker.FRAME_H = 256 ∧
    Worker.atlasRows numDays = (numDays + 15) / 16 ∧
    Worker.atlasW = 16 * 512 ∧
    (∃ p : ℕ, Worker.atlasH numDays = 2 ^ p) ∧
    Worker.atlasRows numDays * 256 ≤ Worker.atlasH numDays ∧
    (∀ m : ℕ, Worker.atlasRows numDays * 256 ≤ 2 ^ m → Worker.atlasH numDays ≤ 2 ^ m) ∧
    (∀ d : ℕ, Worker.dayCol d = d % 16 ∧ Worker.dayRow d = d / 16) ∧
    Worker.atlasRows 17 = 2 ∧ Worker.atlasH 17 = 512 ∧
    Worker.dayCol 16 = 0 ∧ Worker.dayRow 16 = 1 := by
  refine ⟨rfl, rfl, rfl, by unfold Worker.atlasRows Worker.ATLAS_COLS; omega, rfl,
    ⟨Nat.clog 2 (Worker.rawAtlasH numDays), rfl⟩, ?_, ?_, fun d => ⟨rfl, rfl⟩,
    by decide, ?_, by decide, by decide⟩
  · exact Nat.le_pow_clog (by norm_num) (Worker.rawAtlasH numDays)
  · intro m hm
    have hc : Nat.clog 2 (Worker.rawAtlasH numDays) ≤ m :=
      (Nat.le_pow_iff_clog_le (by norm_num)).1 hm
    exact Nat.pow_le_pow_right (by norm_num) hc
  · show 2 ^ Nat.clog 2 (Worker.rawAtlasH 17) = 512
    rw [show Worker.rawAtlasH 17 = 512 from rfl, Worker.clog2_512]
    norm_num

theorem C4_atlas_geometry_witness :
    Worker.atlasRows 17 = 2 ∧ Worker.atlasH 17 = 512 ∧
    Worker.dayCol 16 = 0 ∧ Worker.dayRow 16 = 1 := by
  obtain ⟨-, -, -, -, -, -, -, -, -, h10, h11, h12, h13⟩ := C4_atlas_geometry 17 (by norm_num)
  exact ⟨h10, h11, h12, h13⟩

/-- C5 (evidence): on a start request with `numDays = 2` but a grid holding
only one day's `NUM_POINTS` cells, the job performs no length validation:
it runs both days anyway, posting two progress messages and the terminal
atlas result, and no error of any kind (the message protocol has no error
message).  This contradicts the claim that the job validates the length up
front and rejects such a request. -/
theorem C5_no_length_validation :
    Worker.renderAtlasMsgs (List.replicate Worker.NUM_POINTS (some 0)) 2 (fun _ => false)
      = [Worker.Msg.progress 1 2, Worker.Msg.progress 2 2,
         Worker.Msg.atlas 2 16 1 512 256] := by
  rfl

/-- C7: bicubic resampling of a constant grid (no missing cells) reproduces
the constant exactly, for every latitude in [−90, 90] and longitude in
[−180, 180); and the four Catmull-Rom weights sum to 1 at every offset. -/
theorem C7_bicubic_constant (V lat lng : ℚ) (h1 : -90 ≤ lat) (h2 : lat ≤ 90)
    (h3 : -180 ≤ lng) (h4 : lng < 180) :
    Render.bicubicSample (List.replicate Render.NUM_POINTS (some V)) lat lng = some V ∧
    (∀ t : ℚ, (Render.catmullRomWeights t).sum = 1) :=
  ⟨Render.bicubic_replicate V lat lng h1 h2 h3 h4, Render.catmullRomWeights_sum⟩

theorem C7_bicubic_constant_witness :
    Render.bicubicSample (List.replicate Render.NUM_POINTS (some 7)) 88 (-178) = some 7 :=
  (C7_bicubic_constant 7 88 (-178) (by norm_num) (by norm_num) (by norm_num) (by norm_num)).1

/-- C9: the duplicated copies of the math pipeline agree on all inputs: the
four stop tables are equal, `tempToRGB`, `catmullRomWeights`,
`bicubicSample`, `boxBlur` and `isOceanNearest` are equal as functions, and
the worker's `renderPixelData` equals the library's at explicit dimensions. -/
theorem C9_duplicated_pipeline_agrees :
    Worker.THERMAL_STOPS = Render.THERMAL_STOPS ∧
    Worker.CLASSIC_STOPS = Render.CLASSIC_STOPS ∧
    Worker.EARTH_STOPS = Render.EARTH_STOPS ∧
    Worker.VIVID_STOPS = Render.VIVID_STOPS ∧
    Worker.tempToRGB = Render.tempToRGB ∧
    Worker.catmullRomWeights = Render.catmullRomWeights ∧
    Worker.bicubicSample = Render.bicubicSample ∧
    Worker.boxBlur = Render.boxBlur ∧
    Worker.isOceanNearest = Render.isOceanNearest ∧
    ∀ (temps : Grid) (opts : RenderOptions) (w h : ℕ),
      Worker.renderPixelData temps opts w h
        = Render.renderPixelData temps opts (some w) (some h) :=
  ⟨rfl, rfl, rfl, rfl, rfl, rfl, rfl, rfl, rfl, fun _ _ _ _ => rfl⟩

/-- C10: for every output size and every pixel `(x, y)` of the frame, the
grid indices read by `renderPixelData` — the nearest-neighbor ocean test's
single read and the 16 reads of the bicubic gather, all performed through
`getGridTemp`'s clamp/wrap — lie in `[0, NUM_POINTS)`. -/
theorem C10_reads_in_bounds (w h x y : ℕ) (hx : x < w) (hy : y < h) :
    (0 ≤ Render.oceanReadIndex (Render.pixelLat y h) (Render.pixelLng x w) ∧
      Render.oceanReadIndex (Render.pixelLat y h) (Render.pixelLng x w)
        < (Render.NUM_POINTS : ℤ)) ∧
    (∀ i ∈ Render.bicubicReadIndices (Render.pixelLat y h) (Render.pixelLng x w),
      0 ≤ i ∧ i < (Render.NUM_POINTS : ℤ)) := by
  obtain ⟨hlat1, hlat2⟩ := Render.pixelLat_bounds y h hy
  obtain ⟨hlng1, hlng2⟩ := Render.pixelLng_bounds x w hx
  constructor
  · have h := Render.oceanReadIndex_bounds (Render.pixelLat y h) (Render.pixelLng x w)
      hlng1 hlng2
    simp only [Render.NUM_POINTS_eq]
    push_cast
    exact h
  · intro i hi
    have h := Render.bicubicReadIndices_bounds _ _ hlat1.le hlat2 hlng1 hlng2 i hi
    simp only [Render.NUM_POINTS_eq]
    push_cast
    exact h

theorem C10_reads_in_bounds_witness :
    0 ≤ Render.oceanReadIndex (Render.pixelLat 0 1) (Render.pixelLng 0 1) ∧
    Render.oceanReadIndex (Render.pixelLat 0 1) (Render.pixelLng 0 1)
      < (Render.NUM_POINTS : ℤ) :=
  (C10_reads_in_bounds 1 1 0 0 (by norm_num) (by norm_num)).1

/-- C2: for every stop table with at least 2 stops and strictly increasing
thresholds, `tempToRGB` returns white on missing input, clamps to the first
and last stop colors outside the range, linearly interpolates (rounded half
up) between the bracketing stops strictly inside the range, and returns each
stop's exact color at that stop's threshold. -/
theorem C2_ramp_spec (stops : List Stop) (hlen : 2 ≤ stops.length)
    (hsort : List.Chain' (fun a b => a.t < b.t) stops) :
    (Render.tempToRGB none stops = (255, 255, 255)) ∧
    (∀ t : ℚ, t ≤ (stops.get ⟨0, by omega⟩).t →
      Render.tempToRGB (some t) stops = (stops.get ⟨0, by omega⟩).c) ∧
    (∀ t : ℚ, (stops.get ⟨stops.length - 1, by omega⟩).t ≤ t →
      Render.tempToRGB (some t) stops = (stops.get ⟨stops.length - 1, by omega⟩).c) ∧
    (∀ (t : ℚ) (i : ℕ) (hi : i + 1 < stops.length),
      (stops.get ⟨i, by omega⟩).t < t → t < (stops.get ⟨i + 1, hi⟩).t →
      Render.tempToRGB (some t) stops
        = Render.interpStop (stops.get ⟨i, by omega⟩) (stops.get ⟨i + 1, hi⟩) t) ∧
    (∀ (k : ℕ) (hk : k < stops.length),
      Render.tempToRGB (some (stops.get ⟨k, hk⟩).t) stops = (stops.get ⟨k, hk⟩).c) := by
  have h0 : 0 < stops.length := by omega
  have hpair : List.Pairwise (fun a b => a.t < b.t) stops := List.chain'_iff_pairwise.1 hsort
  have hmono : ∀ (i j : ℕ) (hj : j < stops.length) (hij : i < j),
      (stops.get ⟨i, by omega⟩).t < (stops.get ⟨j, hj⟩).t := by
    intro i j hj hij
    exact List.pairwise_iff_get.1 hpair ⟨i, by omega⟩ ⟨j, hj⟩ hij
  have hb : ∀ t : ℚ, t ≤ (stops.get ⟨0, h0⟩).t →
      Render.tempToRGB (some t) stops = (stops.get ⟨0, h0⟩).c := by
    intro t ht
    rw [Render.tempToRGB_some_eq stops h0 t, if_pos ht]
  have hc : ∀ t : ℚ, (stops.get ⟨stops.length - 1, by omega⟩).t ≤ t →
      Render.tempToRGB (some t) stops = (stops.get ⟨stops.length - 1, by omega⟩).c := by
    intro t ht
    have hfl : (stops.get ⟨0, h0⟩).t < (stops.get ⟨stops.length - 1, by omega⟩).t :=
      hmono 0 (stops.length - 1) (by omega) (by omega)
    rw [Render.tempToRGB_some_eq stops h0 t, if_neg (by linarith), if_pos ht]
  have hd : ∀ (t : ℚ) (i : ℕ) (hi : i + 1 < stops.length),
      (stops.get ⟨i, by omega⟩).t < t → t < (stops.get ⟨i + 1, hi⟩).t →
      Render.tempToRGB (some t) stops
        = Render.interpStop (stops.get ⟨i, by omega⟩) (stops.get ⟨i + 1, hi⟩) t := by
    intro t i hi hlo hhi
    have hle0i : (stops.get ⟨0, h0⟩).t ≤ (stops.get ⟨i, by omega⟩).t := by
      rcases Nat.eq_zero_or_pos i with rfl | hpos
      · exact le_refl _
      · exact (hmono 0 i (by omega) hpos).le
    have hleilast : (stops.get ⟨i + 1, hi⟩).t ≤ (stops.get ⟨stops.length - 1, by omega⟩).t := by
      rcases Nat.lt_or_ge (i + 1) (stops.length - 1) with hlt | hge
      · exact (hmono (i + 1) (stops.length - 1) (by omega) hlt).le
      · have : i + 1 = stops.length - 1 := by omega
        simp only [this]
        exact le_refl _
    rw [Render.tempToRGB_some_eq stops h0 t, if_neg (by linarith), if_neg (by linarith)]
    refine Render.rampLoop_first t i stops hi ?_ hlo.le hhi.le
    intro j hj hji
    rcases Nat.lt_or_ge (j + 1) i with hlt | hge
    · exact lt_trans (hmono (j + 1) i (by omega) hlt) hlo
    · have : j + 1 = i := by omega
      simp only [this]
      exact hlo
  have he : ∀ (k : ℕ) (hk : k < stops.length),
      Render.tempToRGB (some (stops.get ⟨k, hk⟩).t) stops = (stops.get ⟨k, hk⟩).c := by
    intro k hk
    by_cases hk0 : k = 0
    · subst hk0
      exact hb _ (le_refl _)
    · by_cases hklast : k = stops.length - 1
      · subst hklast
        exact hc _ (le_refl _)
      · have hkpos : 0 < k := by omega
        have hkub : k + 1 < stops.length := by omega
        have hlo : (stops.get ⟨0, h0⟩).t < (stops.get ⟨k, hk⟩).t := hmono 0 k hk hkpos
        have hhi : (stops.get ⟨k, hk⟩).t < (stops.get ⟨stops.length - 1, by omega⟩).t :=
          hmono k (stops.length - 1) (by omega) (by omega)
        rw [Render.tempToRGB_some_eq stops h0 _, if_neg (by linarith), if_neg (by linarith)]
        have hk1 : k - 1 + 1 < stops.length := by omega
        have hfin : (⟨k - 1 + 1, hk1⟩ : Fin stops.length) = ⟨k, hk⟩ := by
          apply Fin.ext
          simp only
          omega
        have hgk : stops.get ⟨k - 1 + 1, hk1⟩ = stops.get ⟨k, hk⟩ := congrArg stops.get hfin
        have hprev : (stops.get ⟨k - 1, by omega⟩).t < (stops.get ⟨k, hk⟩).t :=
          hmono (k - 1) k hk (by omega)
        rw [Render.rampLoop_first (stops.get ⟨k, hk⟩).t (k - 1) stops hk1 ?_ ?_ ?_]
        · rw [hgk]
          exact Render.interpStop_right _ _ hprev
        · intro j hj hji
          exact hmono (j + 1) k hk (by omega)
        · exact hprev.le
        · rw [hgk]
  exact ⟨rfl, hb, hc, hd, he⟩

theorem C2_ramp_spec_witness :
    Render.tempToRGB (some 18) Render.THERMAL_STOPS = (255, 235, 50) := by
  have h := C2_ramp_spec Render.THERMAL_STOPS (by norm_num [Render.THERMAL_STOPS])
    (by simp only [Render.THERMAL_STOPS, List.chain'_cons, List.chain'_singleton, and_true]
        norm_num)
  exact h.2.2.2.2 4 (by norm_num [Render.THERMAL_STOPS])

/-- C6 (counterexample): at `latIdx = 0, lngIdx = 362 = 2*NUM_LNG`, the
single-step wrap leaves `lngIdx = 181`, so `getGridTemp` reads flat index
`181` (row 1, column 0) — not the cell at column `362 mod 181 = 0` of row 0
that the claim's modulo rule names.  On a grid whose cell 0 differs from
cell 181 the two disagree. -/
theorem C6_counterexample :
    Render.getGridTemp ((some 1) :: List.replicate 16470 (some 0)) 0 362
      ≠ getGridTempClaimed ((some 1) :: List.replicate 16470 (some 0)) 0 362 := by
  have h1 : Render.gridTempIndex 0 362 = 181 := by
    unfold Render.gridTempIndex
    simp only [Render.NUM_LAT_eq, Render.NUM_LNG_eq]
    norm_num
  have hL : Render.getGridTemp ((some 1) :: List.replicate 16470 (some 0)) 0 362
      = some (some 0) := by
    unfold Render.getGridTemp jsRead
    rw [h1, if_pos (by norm_num), show ((181 : ℤ)).toNat = 181 from rfl,
        show (181 : ℕ) = 180 + 1 from rfl, List.getElem?_cons_succ, List.getElem?_replicate,
        if_pos (by norm_num)]
  have hR : getGridTempClaimed ((some 1) :: List.replicate 16470 (some 0)) 0 362
      = some (some 1) := by
    unfold getGridTempClaimed jsRead
    simp only [Render.NUM_LAT_eq, Render.NUM_LNG_eq]
    norm_num
  rw [hL, hR]
  norm_num

/-- C6 (amended): `getGridTemp` clamps the latitude index to
`[0, NUM_LAT−1]` and reads the column `lngIdx mod NUM_LNG` — the claim's
description — for every `lngIdx` in `[−NUM_LNG, 2*NUM_LNG)`, the range on
which the code's single-step wrap coincides with the modulo rule (outside
it the code reads a different cell, see the counterexample).  The four
listed identities (column −1 ≡ column NUM_LNG−1, column NUM_LNG ≡ column 0,
row −5 ≡ row 0, row NUM_LAT+5 ≡ row NUM_LAT−1) hold for all indices. -/
theorem C6_wrap_clamp_amended (temps : Grid) :
    (∀ latIdx lngIdx : ℤ, -(Render.NUM_LNG : ℤ) ≤ lngIdx →
        lngIdx < 2 * (Render.NUM_LNG : ℤ) →
      Render.getGridTemp temps latIdx lngIdx = getGridTempClaimed temps latIdx lngIdx) ∧
    (∀ latIdx : ℤ,
      Render.getGridTemp temps latIdx (-1)
        = Render.getGridTemp temps latIdx ((Render.NUM_LNG : ℤ) - 1) ∧
      Render.getGridTemp temps latIdx (Render.NUM_LNG : ℤ)
        = Render.getGridTemp temps latIdx 0) ∧
    (∀ lngIdx : ℤ,
      Render.getGridTemp temps (-5) lngIdx = Render.getGridTemp temps 0 lngIdx ∧
      Render.getGridTemp temps ((Render.NUM_LAT : ℤ) + 5) lngIdx
        = Render.getGridTemp temps ((Render.NUM_LAT : ℤ) - 1) lngIdx) := by
  refine ⟨?_, ?_, ?_⟩
  · intro latIdx lngIdx hlo hhi
    unfold Render.getGridTemp getGridTempClaimed
    congr 1
    unfold Render.gridTempIndex
    simp only [Render.NUM_LAT_eq, Render.NUM_LNG_eq] at hlo hhi ⊢
    push_cast at hlo hhi ⊢
    split_ifs <;> omega
  · intro latIdx
    constructor <;>
      · unfold Render.getGridTemp
        congr 1
        unfold Render.gridTempIndex
        simp only [Render.NUM_LAT_eq, Render.NUM_LNG_eq]
        push_cast
        rfl
  · intro lngIdx
    constructor <;>
      · unfold Render.getGridTemp
        congr 1
        unfold Render.gridTempIndex
        simp only [Render.NUM_LAT_eq, Render.NUM_LNG_eq]
        push_cast
        rfl

theorem C6_wrap_clamp_amended_witness :
    Render.getGridTemp [] 0 (-1) = Render.getGridTemp [] 0 ((Render.NUM_LNG : ℤ) - 1) :=
  ((C6_wrap_clamp_amended []).2.1 0).1

/-- C1: in every rendered frame, every pixel whose nearest grid cell holds
the missing-data sentinel (as `isOceanNearest` computes it) is exactly
opaque white — all four RGBA bytes 255 — for every options value and blur
radius: with no blur the pixel loop writes white directly; with blur the
re-stamp restores the RGB bytes and no stage ever writes an alpha byte of
the output buffer after the pixel loop set it to 255. -/
theorem C1_ocean_pixels_white (temps : Grid) (_hlen : temps.length = Render.NUM_POINTS)
    (opts : RenderOptions) (w h x y : ℕ) (hx : x < w) (hy : y < h)
    (hoc : Render.isOceanNearest temps (Render.pixelLat y h) (Render.pixelLng x w) = true) :
    Render.renderPixelData temps opts (some w) (some h) ((y*w + x)*4) = 255 ∧
    Render.renderPixelData temps opts (some w) (some h) ((y*w + x)*4 + 1) = 255 ∧
    Render.renderPixelData temps opts (some w) (some h) ((y*w + x)*4 + 2) = 255 ∧
    Render.renderPixelData temps opts (some w) (some h) ((y*w + x)*4 + 3) = 255 := by
  have key : ∀ ch, ch < 4 →
      Render.renderPixelData temps opts (some w) (some h) ((y*w + x)*4 + ch) = 255 := by
    intro ch hch
    unfold Render.renderPixelData
    simp only [Option.getD_some]
    by_cases hblur : 0 < opts.blurRadius
    · rw [if_pos hblur]
      by_cases hch3 : ch = 3
      · subst hch3
        have hmod : ((y*w + x)*4 + 3) % 4 = 3 := by
          have hp : ∀ p : ℕ, (p*4 + 3) % 4 = 3 := fun p => by omega
          exact hp (y*w + x)
        rw [Render.restamp_alpha _ _ _ _ hmod, Render.boxBlur_alpha _ _ _ _ _ _ hmod,
          Render.renderLoop_data _ _ _ _ _ _ _ hx hy (by omega)]
        exact Render.basePixel_ocean _ _ _ _ _ _ _ hoc
      · have hpix : y*w + x < w*h := by
          have hlt : y*w + x < h*w + 0 := pixLinear_lt w x 0 y h hx hy
          calc y*w + x < h*w + 0 := hlt
            _ = w*h := by ring
        have hmask : (Render.renderLoop temps
            (opts.customStops.getD (Render.COLORWAY_MAP opts.colorway)) w h).2 (y*w + x)
            = true := by
          rw [Render.renderLoop_mask _ _ _ _ _ _ hx hy, hoc]
        exact Render.restamp_rgb _ _ _ _ _ hpix hmask (by omega)
    · rw [if_neg hblur, Render.renderLoop_data _ _ _ _ _ _ _ hx hy hch]
      exact Render.basePixel_ocean _ _ _ _ _ _ _ hoc
  exact ⟨by simpa using key 0 (by norm_num), key 1 (by norm_num), key 2 (by norm_num),
    key 3 (by norm_num)⟩

theorem C1_ocean_pixels_white_witness :
    Render.isOceanNearest (List.replicate Render.NUM_POINTS (none : JSNum))
      (Render.pixelLat 0 1) (Render.pixelLng 0 1) = true ∧
    Render.renderPixelData (List.replicate Render.NUM_POINTS (none : JSNum))
      ⟨Colorway.thermal, none, 5⟩ (some 1) (some 1) 3 = 255 := by
  have h1 : Render.pixelLat 0 1 = 90 := by norm_num [Render.pixelLat]
  have h2 : Render.pixelLng 0 1 = -180 := by norm_num [Render.pixelLng]
  have h3 : Render.oceanReadIndex 90 (-180) = 0 := by
    unfold Render.oceanReadIndex
    simp only [Render.NUM_LAT_eq, Render.NUM_LNG_eq]
    norm_num [jsRound_eq, Render.LAT_MAX, Render.LNG_MIN, Render.GRID_STEP]
  have hoc : Render.isOceanNearest (List.replicate Render.NUM_POINTS (none : JSNum))
      (Render.pixelLat 0 1) (Render.pixelLng 0 1) = true := by
    unfold Render.isOceanNearest
    rw [h1, h2, h3,
      Render.jsRead_replicate _ _ _ (by norm_num) (by norm_num [Render.NUM_POINTS_eq])]
    rfl
  refine ⟨hoc, ?_⟩
  have h := C1_ocean_pixels_white (List.replicate Render.NUM_POINTS (none : JSNum))
    (by rw [List.length_replicate]) ⟨Colorway.thermal, none, 5⟩ 1 1 0 0
    (by norm_num) (by norm_num) hoc
  exact h.2.2.2

/-- C8 (counterexample): a constant grid of 20 rendered with the thermal
ramp gives non-ocean pixels the green value `Math.round(235 − 30/7) = 231`,
not the 230 the claim states (the spec's "≈ (255, 230, 47)" rounds the
exact interpolation 230.714… the wrong way). -/
theorem C8_counterexample :
    Render.isOceanNearest (List.replicate Render.NUM_POINTS (some 20))
      (Render.pixelLat 0 1) (Render.pixelLng 0 1) = false ∧
    Render.renderPixelData (List.replicate Render.NUM_POINTS (some 20))
      ⟨Colorway.thermal, none, 0⟩ (some 1) (some 1) 1 = 231 ∧
    Render.renderPixelData (List.replicate Render.NUM_POINTS (some 20))
      ⟨Colorway.thermal, none, 0⟩ (some 1) (some 1) 1 ≠ 230 := by
  have hlat := Render.pixelLat_bounds 0 1 (by norm_num)
  have hlng := Render.pixelLng_bounds 0 1 (by norm_num)
  have hoc := Render.isOcean_replicate 20 (Render.pixelLat 0 1) (Render.pixelLng 0 1)
    hlng.1 hlng.2
  have hbic := Render.bicubic_replicate 20 (Render.pixelLat 0 1) (Render.pixelLng 0 1)
    hlat.1.le hlat.2 hlng.1 hlng.2
  have hbase1 : Render.basePixel (List.replicate Render.NUM_POINTS (some 20))
      Render.THERMAL_STOPS 1 1 0 0 1 = 231 := by
    unfold Render.basePixel
    rw [hoc]
    simp only [Bool.false_eq_true, if_false]
    rw [if_neg (by norm_num), hbic, Render.tempToRGB_thermal_20]
    norm_num [u8clampZ]
    all_goals decide
  have hgreen : Render.renderPixelData (List.replicate Render.NUM_POINTS (some 20))
      ⟨Colorway.thermal, none, 0⟩ (some 1) (some 1) 1 = 231 := by
    have hdata := Render.renderLoop_data (List.replicate Render.NUM_POINTS (some 20))
      Render.THERMAL_STOPS 1 1 0 0 1 (by norm_num) (by norm_num) (by norm_num)
    unfold Render.renderPixelData
    simp only [Option.getD_some]
    rw [if_neg (by norm_num),
      show (Option.getD (none : Option (List Stop))
        (Render.COLORWAY_MAP Colorway.thermal)) = Render.THERMAL_STOPS from rfl]
    exact hdata.trans hbase1
  exact ⟨hoc, hgreen, by rw [hgreen]; norm_num⟩

/-- C8 (amended): for a constant grid of value 20 with no missing cells,
rendered with the built-in thermal ramp and no blur, every pixel is
non-ocean and has RGB (255, 231, 47): the value 20 brackets the stops
(18, [255, 235, 50]) and (25, [255, 220, 40]) with fraction
p = (20−18)/(25−18), and each channel is `Math.round` of the
interpolation — 235 − 30/7 rounds to 231, not 230. -/
theorem C8_constant20_thermal (w h x y : ℕ) (hx : x < w) (hy : y < h) :
    Render.isOceanNearest (List.replicate Render.NUM_POINTS (some 20))
      (Render.pixelLat y h) (Render.pixelLng x w) = false ∧
    Render.renderPixelData (List.replicate Render.NUM_POINTS (some 20))
      ⟨Colorway.thermal, none, 0⟩ (some w) (some h) ((y*w + x)*4) = 255 ∧
    Render.renderPixelData (List.replicate Render.NUM_POINTS (some 20))
      ⟨Colorway.thermal, none, 0⟩ (some w) (some h) ((y*w + x)*4 + 1) = 231 ∧
    Render.renderPixelData (List.replicate Render.NUM_POINTS (some 20))
      ⟨Colorway.thermal, none, 0⟩ (some w) (some h) ((y*w + x)*4 + 2) = 47 := by
  have hlat := Render.pixelLat_bounds y h hy
  have hlng := Render.pixelLng_bounds x w hx
  have hoc := Render.isOcean_replicate 20 (Render.pixelLat y h) (Render.pixelLng x w)
    hlng.1 hlng.2
  have hbic := Render.bicubic_replicate 20 (Render.pixelLat y h) (Render.pixelLng x w)
    hlat.1.le hlat.2 hlng.1 hlng.2
  have key : ∀ ch v, ch < 4 →
      (Render.basePixel (List.replicate Render.NUM_POINTS (some 20)) Render.THERMAL_STOPS
          w h x y ch = v) →
      Render.renderPixelData (List.replicate Render.NUM_POINTS (some 20))
        ⟨Colorway.thermal, none, 0⟩ (some w) (some h) ((y*w + x)*4 + ch) = v := by
    intro ch v hch hbase
    unfold Render.renderPixelData
    simp only [Option.getD_some]
    rw [if_neg (by norm_num),
      show (Option.getD (none : Option (List Stop))
        (Render.COLORWAY_MAP Colorway.thermal)) = Render.THERMAL_STOPS from rfl,
      Render.renderLoop_data _ _ _ _ _ _ _ hx hy hch, hbase]
  have hbase0 : Render.basePixel (List.replicate Render.NUM_POINTS (some 20))
      Render.THERMAL_STOPS w h x y 0 = 255 := by
    unfold Render.basePixel
    rw [hoc]
    simp only [Bool.false_eq_true, if_false]
    rw [if_neg (by norm_num), hbic, Render.tempToRGB_thermal_20]
    norm_num [u8clampZ]
  have hbase1 : Render.basePixel (List.replicate Render.NUM_POINTS (some 20))
      Render.THERMAL_STOPS w h x y 1 = 231 := by
    unfold Render.basePixel
    rw [hoc]
    simp only [Bool.false_eq_true, if_false]
    rw [if_neg (by norm_num), hbic, Render.tempToRGB_thermal_20]
    norm_num [u8clampZ]
    all_goals decide
  have hbase2 : Render.basePixel (List.replicate Render.NUM_POINTS (some 20))
      Render.THERMAL_STOPS w h x y 2 = 47 := by
    unfold Render.basePixel
    rw [hoc]
    simp only [Bool.false_eq_true, if_false]
    rw [if_neg (by norm_num), hbic, Render.tempToRGB_thermal_20]
    norm_num [u8clampZ]
    all_goals decide
  refine ⟨hoc, ?_, key 1 231 (by norm_num) hbase1, key 2 47 (by norm_num) hbase2⟩
  rw [← Nat.add_zero ((y*w + x)*4)]
  exact key 0 255 (by norm_num) hbase0

theorem C8_constant20_thermal_witness :
    Render.renderPixelData (List.replicate Render.NUM_POINTS (some 20))
      ⟨Colorway.thermal, none, 0⟩ (some 1) (some 1) 1 = 231 := by
  have h := C8_constant20_thermal 1 1 0 0 (by norm_num) (by norm_num)
  exact h.2.2.1
